import Mathlib

/-!
Shallow embedding of `compare_mt/bucketers.py` (the bucketed comparison engine
of compare-mt) and proofs about its behaviour.

Modelling conventions:
- Python strings are Lean `String`; `corpus_utils.lower` (an external
  collaborator) is modelled as ASCII case folding `String.toLower`.
- Python numbers appearing in cutoffs / likelihoods / statistics are modelled
  as `ℚ` (the claims only use order and exact field arithmetic on them).
- `None` becomes `Option.none`; a fallible Python path (raise, division by
  zero, attribute error) becomes `Except String`.
- Python dicts keyed by strings are modelled as association lists in insertion
  order (so that the mutation of a `defaultdict` on lookup is observable).
-/

namespace CompareMT

/-- Model of `corpus_utils.lower` (external collaborator): case folding. -/
def lower (w : String) : String := w.toLower

/-- The normalization `if self.case_insensitive: w = corpus_utils.lower(w)`
applied by the engines before comparing or bucketing a token. -/
def lowerIf (ci : Bool) (w : String) : String := if ci then lower w else w

/-- `itertools.zip_longest` padding of a per-token label list: position `i`
of the effective label list (`labels if labels else []`), `none` past its end.
(The source would crash if the label list were longer than the sentence; the
model only queries positions of the sentence.) -/
def labGet (labels : Option (List String)) (i : Nat) : Option String :=
  (labels.getD []).get? i

/-- `Bucketer.cutoff_into_bucket`: linear scan over `bucket_cutoffs`
returning the first index whose cutoff strictly exceeds `value`, and the
number of cutoffs (the overflow bucket) when none does. -/
def cutoff_into_bucket (bucket_cutoffs : List ℚ) (value : ℚ) : Nat :=
  match bucket_cutoffs with
  | [] => 0
  | v :: rest => if value < v then 0 else cutoff_into_bucket rest value + 1

/-- `Bucketer.set_bucket_cutoffs`, the display-string part: bucket 0 renders
as an upper bound, middle buckets as half-open ranges (collapsed to a single
value for unit-width integer ranges), and a trailing overflow bucket using the
last cutoff. (The source reuses the loop variable for the trailing string and
assumes a non-empty cutoff list; numeral rendering of the rational model
matches Python for the integer-valued cutoffs the repository uses.) -/
def bucket_strs_of_cutoffs (bucket_cutoffs : List ℚ) (numTypeInt : Bool) : List String :=
  (bucket_cutoffs.enum.map (fun p =>
    if p.1 = 0 then "<" ++ toString p.2
    else if numTypeInt = true ∧ p.2 - 1 = bucket_cutoffs.getD (p.1 - 1) 0 then
      toString (p.2 - 1)
    else "[" ++ toString (bucket_cutoffs.getD (p.1 - 1) 0) ++ "," ++ toString p.2 ++ ")"))
  ++ [">=" ++ toString ((bucket_cutoffs.getLast?).getD 0)]

lemma cutoff_into_bucket_le_length (C : List ℚ) (v : ℚ) :
    cutoff_into_bucket C v ≤ C.length := by
  induction C with
  | nil => simp [cutoff_into_bucket]
  | cons c rest ih =>
    by_cases h : v < c <;> simp [cutoff_into_bucket, h] <;> omega

lemma cutoff_into_bucket_mono (C : List ℚ) {v w : ℚ} (h : v ≤ w) :
    cutoff_into_bucket C v ≤ cutoff_into_bucket C w := by
  induction C with
  | nil => simp [cutoff_into_bucket]
  | cons c rest ih =>
    by_cases hw : w < c
    · have hv : v < c := lt_of_le_of_lt h hw
      simp [cutoff_into_bucket, hv, hw]
    · by_cases hv : v < c
      · simp [cutoff_into_bucket, hv, hw]
      · simp only [cutoff_into_bucket, if_neg hv, if_neg hw]
        omega

lemma cutoff_into_bucket_eq_zero_iff (c : ℚ) (rest : List ℚ) (v : ℚ) :
    cutoff_into_bucket (c :: rest) v = 0 ↔ v < c := by
  by_cases h : v < c <;> simp [cutoff_into_bucket, h]

lemma cutoff_into_bucket_eq_length_iff (C : List ℚ) (hC : C.Sorted (· < ·))
    (hne : C ≠ []) (v : ℚ) :
    cutoff_into_bucket C v = C.length ↔ C.getLast hne ≤ v := by
  induction C with
  | nil => exact absurd rfl hne
  | cons c rest ih =>
    cases rest with
    | nil =>
      by_cases h : v < c
      · simp [cutoff_into_bucket, h, List.getLast, not_le.mpr h]
      · simp [cutoff_into_bucket, h, List.getLast, le_of_not_lt h]
    | cons d rest2 =>
      have hrest : (d :: rest2) ≠ [] := by simp
      have hsorted : (d :: rest2).Sorted (· < ·) := hC.of_cons
      have hlast_mem : (d :: rest2).getLast hrest ∈ (d :: rest2) :=
        List.getLast_mem hrest
      have hclast : c < (d :: rest2).getLast hrest :=
        (List.sorted_cons.mp hC).1 _ hlast_mem
      by_cases h : v < c
      · have hfalse : ¬ ((d :: rest2).getLast hrest ≤ v) :=
          not_le.mpr (h.trans hclast)
        rw [List.getLast_cons hrest]
        simp only [cutoff_into_bucket, if_pos h, List.length_cons]
        constructor
        · intro h0; omega
        · intro hle; exact absurd hle hfalse
      · rw [List.getLast_cons hrest, ← ih hsorted hrest]
        simp only [cutoff_into_bucket, if_neg h, List.length_cons]
        omega

/-- C2: for every strictly increasing non-empty cutoff list `C`,
`cutoff_into_bucket` returns an index in `[0, C.length]`, is monotonically
non-decreasing in the value, returns `0` iff the value is below the first
cutoff, and returns `C.length` iff the value is at least the last cutoff;
it is a total function of its (rational-valued) argument by construction. -/
theorem C2_cutoff_into_bucket_spec (C : List ℚ) (hC : C.Sorted (· < ·)) (hne : C ≠ []) :
    (∀ v, cutoff_into_bucket C v ≤ C.length) ∧
    (∀ v w, v ≤ w → cutoff_into_bucket C v ≤ cutoff_into_bucket C w) ∧
    (∀ v, cutoff_into_bucket C v = 0 ↔ v < C.head hne) ∧
    (∀ v, cutoff_into_bucket C v = C.length ↔ C.getLast hne ≤ v) := by
  refine ⟨fun v => cutoff_into_bucket_le_length C v,
          fun v w h => cutoff_into_bucket_mono C h,
          fun v => ?_,
          fun v => cutoff_into_bucket_eq_length_iff C hC hne v⟩
  cases C with
  | nil => exact absurd rfl hne
  | cons c rest => simpa using cutoff_into_bucket_eq_zero_iff c rest v

/-! ## Python dict model

Dicts keyed by labels/words are modelled as association lists in insertion
order, so that the growth of a `defaultdict` on lookup of a missing key is
observable (claims C7 and C9 depend on it). -/

/-- Python dict assignment `d[k] = v`: replace the value of an existing key in
place, else append a new entry. -/
def dictSet {κ : Type} [BEq κ] (es : List (κ × Nat)) (k : κ) (v : Nat) :
    List (κ × Nat) :=
  if es.any (fun p => p.1 == k) then
    es.map (fun p => if p.1 == k then (k, v) else p)
  else es ++ [(k, v)]

/-- `defaultdict.__getitem__`: return the stored value, or the default while
inserting `(k, default)` when the key is missing. -/
def defaultdictGet {κ : Type} [BEq κ] (es : List (κ × Nat)) (dflt : Nat) (k : κ) :
    Nat × List (κ × Nat) :=
  match es.lookup k with
  | some v => (v, es)
  | none => (dflt, es ++ [(k, dflt)])

/-- `defaultdict(int)` increment `d[k] += 1`: a `__getitem__` (which may
insert 0) followed by an assignment. -/
def bumpCount (es : List (String × Nat)) (k : String) : List (String × Nat) :=
  let r := defaultdictGet es 0 k
  dictSet r.2 k (r.1 + 1)

/-- Python truthiness of an optional list-valued argument: `None` and the
empty list are falsy. -/
def pyTruthy {α : Type} (o : Option (List α)) : Bool :=
  match o with
  | none => false
  | some l => !l.isEmpty

/-! ## Label bucketers (LabelWordBucketer / LabelSentenceBucketer) -/

/-- The `bucket_map` construction shared by `LabelWordBucketer.__init__` and
`LabelSentenceBucketer.__init__`: `for i, l in enumerate(label_set):
bucket_map[l] = i` on a defaultdict whose default is `len(label_set)`. -/
def labelBucketEntries (label_set : List String) : List (String × Nat) :=
  label_set.enum.foldl (fun es p => dictSet es p.2 p.1) []

/-- State of a constructed `LabelWordBucketer`: the bucket display strings,
the entries of the defaultdict `bucket_map`, and its default
`len(label_set)`. -/
structure LabelWordBucketerS where
  bucket_strs : List String
  entries : List (String × Nat)
  dflt : Nat
deriving DecidableEq

/-- `LabelWordBucketer.__init__` for a list-valued `label_set` (the
string-splitting path is external parsing). -/
def LabelWordBucketer.init (label_set : List String) : LabelWordBucketerS :=
  { bucket_strs := label_set ++ ["other"]
    entries := labelBucketEntries label_set
    dflt := label_set.length }

/-- `LabelWordBucketer.calc_bucket`: raises when the label is falsy (`None`
or the empty string), otherwise returns `bucket_map[label]` — a defaultdict
lookup that records an unknown label in the map. -/
def LabelWordBucketer.calc_bucket (b : LabelWordBucketerS) (word : String)
    (label : Option String) : Except String (Nat × LabelWordBucketerS) :=
  if label = none ∨ label = some "" then
    .error "ValueError: When calculating buckets by label, label must be non-zero"
  else
    let r := defaultdictGet b.entries b.dflt (label.getD "")
    .ok (r.1, { b with entries := r.2 })

/-- State of a constructed `LabelSentenceBucketer`. Its dict keys are
`Option String` because Python's `None` is a legal dict key distinct from
every string; construction inserts only `some`-keys. -/
structure LabelSentenceBucketerS where
  bucket_strs : List String
  entries : List (Option String × Nat)
  dflt : Nat
deriving DecidableEq

/-- `LabelSentenceBucketer.__init__` for a list-valued `label_set`. -/
def LabelSentenceBucketer.init (label_set : List String) : LabelSentenceBucketerS :=
  { bucket_strs := label_set ++ ["other"]
    entries := (labelBucketEntries label_set).map (fun p => (some p.1, p.2))
    dflt := label_set.length }

/-- `LabelSentenceBucketer.calc_bucket`: `return self.bucket_map[label]`,
with no falsy-label check — a missing (`None`) label is looked up as a key
and receives the defaultdict's default, the trailing "other" bucket. -/
def LabelSentenceBucketer.calc_bucket (b : LabelSentenceBucketerS)
    (val : List String) (ref : Option (List String)) (label : Option String) :
    Nat × LabelSentenceBucketerS :=
  let r := defaultdictGet b.entries b.dflt label
  (r.1, { b with entries := r.2 })

/-! ## CaseWordBucketer -/

/-- Python `str.islower` over ASCII: at least one cased character and no
uppercase character. -/
def pyIslower (w : String) : Bool :=
  w.toList.any (fun c => c.isAlpha) && w.toList.all (fun c => !(c.isUpper))

/-- Python `str.isupper` over ASCII: at least one cased character and no
lowercase character. -/
def pyIsupper (w : String) : Bool :=
  w.toList.any (fun c => c.isAlpha) && w.toList.all (fun c => !(c.isLower))

/-- Python `str.istitle` over ASCII: every maximal cased run starts with an
uppercase character followed by lowercase ones, and at least one cased
character occurs. The fold state is (valid, seenCased, prevCased). -/
def pyIstitle (w : String) : Bool :=
  let st := w.toList.foldl (fun (st : Bool × Bool × Bool) c =>
    if c.isUpper then (st.1 && !st.2.2, true, true)
    else if c.isLower then (st.1 && st.2.2, true, true)
    else (st.1, st.2.1, false)) (true, false, false)
  st.1 && st.2.1

/-- `CaseWordBucketer.__init__`: the four fixed buckets. -/
def CaseWordBucketer.bucket_strs : List String := ["lower", "upper", "title", "other"]

/-- `CaseWordBucketer.calc_bucket`: case predicates in priority order. -/
def CaseWordBucketer.calc_bucket (word : String) (label : Option String) : Nat :=
  if pyIslower word then 0
  else if pyIsupper word then 1
  else if pyIstitle word then 2
  else 3

/-! ## FreqWordBucketer construction -/

/-- Python `int()` on the well-formed decimal strings of a counts file
(a malformed numeric string would raise in Python; not exercised here). -/
def pyInt (s : String) : Nat := (s.toNat?).getD 0

/-- State of a constructed `FreqWordBucketer`. -/
structure FreqWordBucketerS where
  case_insensitive : Bool
  freq_counts : List (String × Nat)
  bucket_cutoffs : List ℚ
  bucket_strs : List String

/-- `FreqWordBucketer.__init__`. File-valued sources are modelled by their
contents (I/O is an external collaborator): `freq_count_file` as its lines
pre-split on tabs, `freq_corpus_file` as the tokenized corpus it holds
(`none` standing for an absent/falsy path). The source checks, in order:
a truthy `freq_counts` is used as is (later sources ignored); otherwise a
given `freq_count_file` is parsed (lines with other than 2 columns are
skipped with a diagnostic); otherwise a truthy `freq_corpus_file`, then a
truthy `freq_data`, is counted; otherwise it raises. -/
def FreqWordBucketer.init (freq_counts : Option (List (String × Nat)))
    (freq_count_file : Option (List (List String)))
    (freq_corpus_file : Option (List (List String)))
    (freq_data : Option (List (List String)))
    (bucket_cutoffs : Option (List ℚ))
    (case_insensitive : Bool) : Except String FreqWordBucketerS :=
  let build : Except String (List (String × Nat)) :=
    if pyTruthy freq_counts then .ok (freq_counts.getD [])
    else if freq_count_file ≠ none then
      .ok ((freq_count_file.getD []).foldl (fun es cols =>
        if cols.length ≠ 2 then es
        else dictSet es (if case_insensitive then lower (cols.getD 0 "") else cols.getD 0 "")
          (pyInt (cols.getD 1 ""))) [])
    else if pyTruthy freq_corpus_file then
      .ok ((freq_corpus_file.getD []).foldl (fun es words =>
        words.foldl (fun es2 w =>
          bumpCount es2 (if case_insensitive then lower w else w)) es) [])
    else if pyTruthy freq_data then
      .ok ((freq_data.getD []).foldl (fun es words =>
        words.foldl (fun es2 w =>
          bumpCount es2 (if case_insensitive then lower w else w)) es) [])
    else .error "ValueError: Must have at least one source of frequency counts for FreqWordBucketer"
  match build with
  | .error e => .error e
  | .ok fc =>
    let cutoffs := bucket_cutoffs.getD [1, 2, 3, 4, 5, 10, 100, 1000]
    .ok { case_insensitive := case_insensitive, freq_counts := fc,
          bucket_cutoffs := cutoffs,
          bucket_strs := bucket_strs_of_cutoffs cutoffs true }

/-- `FreqWordBucketer.calc_bucket`: the (case-folded) word's count, or 0 for
an unseen word, placed by the cutoff model. -/
def FreqWordBucketer.calc_bucket (b : FreqWordBucketerS) (word : String)
    (label : Option String) : Nat :=
  if b.case_insensitive then
    cutoff_into_bucket b.bucket_cutoffs (((b.freq_counts.lookup (lower word)).getD 0 : Nat) : ℚ)
  else
    cutoff_into_bucket b.bucket_cutoffs (((b.freq_counts.lookup word).getD 0 : Nat) : ℚ)

/-- `isOk` test on the `Except` model of a fallible constructor/engine. -/
def isOkE {ε α : Type} : Except ε α → Bool
  | .ok _ => true
  | .error _ => false

/-- Model of the lazy flag initialization
`if not hasattr(self, 'case_insensitive'): self.case_insensitive = False`
performed by the three statistics engines: the attribute as stored
(`none` = absent) is forced to a value, possibly writing `False`. -/
def ensure_case_insensitive (f : Option Bool) : Bool × Option Bool :=
  match f with
  | none => (false, some false)
  | some b => (b, some b)

/-- Witness for C2 at the concrete cutoff list `[1, 2]` and value `1`. -/
theorem C2_cutoff_into_bucket_spec_witness :
    ([(1 : ℚ), 2].Sorted (· < ·)) ∧ cutoff_into_bucket [(1 : ℚ), 2] 1 = 1 ∧
      cutoff_into_bucket [(1 : ℚ), 2] 1 ≤ 2 := by
  have h := C2_cutoff_into_bucket_spec [(1 : ℚ), 2] (by decide) (by decide)
  exact ⟨by decide, by decide, h.1 1⟩

/-! ## Association-list dict lemmas -/

lemma lookup_append_eq {κ : Type} [BEq κ] (l1 l2 : List (κ × Nat)) (k : κ) :
    (l1 ++ l2).lookup k =
      match l1.lookup k with
      | some v => some v
      | none => l2.lookup k := by
  induction l1 with
  | nil => simp
  | cons a l ih =>
    obtain ⟨a1, a2⟩ := a
    rw [List.cons_append, List.lookup_cons, List.lookup_cons]
    cases hb : k == a1 <;> simp [ih]

lemma lookup_eq_none_of_forall {κ : Type} [BEq κ] [LawfulBEq κ]
    (es : List (κ × Nat)) (k : κ) (h : ∀ q ∈ es, q.1 ≠ k) :
    es.lookup k = none := by
  induction es with
  | nil => rfl
  | cons a l ih =>
    obtain ⟨a1, a2⟩ := a
    rw [List.lookup_cons]
    have hne : a1 ≠ k := h (a1, a2) (by simp)
    cases hb : k == a1 with
    | false => exact ih (fun q hq => h q (by simp [hq]))
    | true => exact absurd (eq_of_beq hb).symm hne

lemma lookup_mem_value {κ : Type} [BEq κ] (es : List (κ × Nat)) (k : κ) (v : Nat)
    (h : es.lookup k = some v) : ∃ q ∈ es, q.2 = v := by
  induction es with
  | nil => simp [List.lookup_nil] at h
  | cons a l ih =>
    obtain ⟨a1, a2⟩ := a
    rw [List.lookup_cons] at h
    cases hb : k == a1 with
    | false =>
      rw [hb] at h
      obtain ⟨q, hq, hv⟩ := ih h
      exact ⟨q, by simp [hq], hv⟩
    | true =>
      rw [hb] at h
      exact ⟨(a1, a2), by simp, (Option.some_inj.mp h)⟩

lemma dictSet_mem {κ : Type} [BEq κ] (es : List (κ × Nat)) (k : κ) (v : Nat) :
    ∀ q ∈ dictSet es k v, q = (k, v) ∨ q ∈ es := by
  intro q hq
  unfold dictSet at hq
  split at hq
  · obtain ⟨p, hp, hfp⟩ := List.mem_map.mp hq
    by_cases hk : (p.1 == k) = true
    · rw [if_pos hk] at hfp
      exact Or.inl hfp.symm
    · rw [if_neg hk] at hfp
      exact Or.inr (hfp ▸ hp)
  · rcases List.mem_append.mp hq with h | h
    · exact Or.inr h
    · exact Or.inl (by simpa using h)

lemma foldl_dictSet_inv (P : String × Nat → Prop) (pairs : List (Nat × String))
    (hp : ∀ p ∈ pairs, P (p.2, p.1)) :
    ∀ acc, (∀ q ∈ acc, P q) →
      ∀ q ∈ pairs.foldl (fun es p => dictSet es p.2 p.1) acc, P q := by
  induction pairs with
  | nil => intro acc hacc q hq; exact hacc q hq
  | cons p rest ih =>
    intro acc hacc q hq
    refine ih (fun r hr => hp r (by simp [hr])) (dictSet acc p.2 p.1) ?_ q hq
    intro r hr
    rcases dictSet_mem acc p.2 p.1 r hr with h | h
    · exact h ▸ hp p (by simp)
    · exact hacc r h

lemma labelBucketEntries_mem (ls : List String) :
    ∀ q ∈ labelBucketEntries ls, q.1 ∈ ls ∧ q.2 < ls.length := by
  refine foldl_dictSet_inv _ ls.enum ?_ [] (by simp)
  intro p hp
  have hg : ls.get? p.1 = some p.2 := List.mem_enum_iff_get?.mp hp
  exact ⟨List.get?_mem hg, List.get?_eq_some.mp hg |>.choose⟩

lemma labelBucketEntries_lookup_none (ls : List String) (s : String) (hs : s ∉ ls) :
    (labelBucketEntries ls).lookup s = none := by
  refine lookup_eq_none_of_forall _ _ (fun q hq => ?_)
  intro he
  exact hs (he ▸ (labelBucketEntries_mem ls q hq).1)

lemma defaultdictGet_fst_prop {κ : Type} [BEq κ] (P : Nat → Prop)
    (es : List (κ × Nat)) (d : Nat) (k : κ)
    (hP : ∀ q ∈ es, P q.2) (hd : P d) : P (defaultdictGet es d k).1 := by
  unfold defaultdictGet
  cases h : es.lookup k with
  | none => exact hd
  | some v =>
    obtain ⟨q, hq, hv⟩ := lookup_mem_value es k v h
    exact hv ▸ hP q hq

lemma defaultdictGet_lookupD {κ : Type} [BEq κ] [LawfulBEq κ]
    (es : List (κ × Nat)) (d : Nat) (k : κ) :
    ∀ k2, (((defaultdictGet es d k).2).lookup k2).getD d = (es.lookup k2).getD d := by
  intro k2
  unfold defaultdictGet
  cases h : es.lookup k with
  | some v => rfl
  | none =>
    simp only [lookup_append_eq]
    cases h2 : es.lookup k2 with
    | some v => rfl
    | none =>
      rw [List.lookup_cons]
      cases hb : k2 == k with
      | false => rfl
      | true =>
        have : k2 = k := eq_of_beq hb
        simp

/-! ## C10: bucket indices stay in range -/

/-- C10: the case bucketer and both categorical label bucketers return a
bucket index at most `bucket_strs.length - 1` (for the word-level label
bucketer, whenever the call returns at all — i.e. under a non-falsy label),
so the per-bucket accumulator arrays in the engines are indexed in range. -/
theorem C10_calc_bucket_range :
    (∀ w lab, CaseWordBucketer.calc_bucket w lab ≤ CaseWordBucketer.bucket_strs.length - 1) ∧
    (∀ label_set word lab r b2,
      LabelWordBucketer.calc_bucket (LabelWordBucketer.init label_set) word lab
        = .ok (r, b2) →
      r ≤ (LabelWordBucketer.init label_set).bucket_strs.length - 1) ∧
    (∀ label_set val ref lab,
      (LabelSentenceBucketer.calc_bucket (LabelSentenceBucketer.init label_set) val ref lab).1
        ≤ (LabelSentenceBucketer.init label_set).bucket_strs.length - 1) := by
  refine ⟨fun w lab => ?_, fun ls word lab r b2 h => ?_, fun ls val ref lab => ?_⟩
  · unfold CaseWordBucketer.calc_bucket CaseWordBucketer.bucket_strs
    split_ifs <;> simp
  · have hlen : (LabelWordBucketer.init ls).bucket_strs.length - 1 = ls.length := by
      simp [LabelWordBucketer.init]
    rw [hlen]
    unfold LabelWordBucketer.calc_bucket at h
    split at h
    · exact absurd h (by simp)
    · have hr : r = (defaultdictGet (LabelWordBucketer.init ls).entries
          (LabelWordBucketer.init ls).dflt (lab.getD "")).1 := by
        simp only [Except.ok.injEq, Prod.mk.injEq] at h
        exact h.1.symm
      rw [hr]
      refine defaultdictGet_fst_prop (· ≤ ls.length) _ _ _ ?_ ?_
      · intro q hq
        exact le_of_lt ((labelBucketEntries_mem ls q hq).2)
      · simp [LabelWordBucketer.init]
  · have hlen : (LabelSentenceBucketer.init ls).bucket_strs.length - 1 = ls.length := by
      simp [LabelSentenceBucketer.init]
    rw [hlen]
    unfold LabelSentenceBucketer.calc_bucket
    refine defaultdictGet_fst_prop (· ≤ ls.length) _ _ _ ?_ ?_
    · intro q hq
      obtain ⟨p, hp, hpq⟩ := List.mem_map.mp hq
      have := (labelBucketEntries_mem ls p hp).2
      have h2 : q.2 = p.2 := by rw [← hpq]
      omega
    · simp [LabelSentenceBucketer.init]

/-- Witness for C10 at concrete inputs: the case bucketer on "Hello", the
word label bucketer on an unknown label "b" over label set ["a"], and the
sentence label bucketer on a missing label. -/
theorem C10_calc_bucket_range_witness :
    CaseWordBucketer.calc_bucket "Hello" none ≤ 3 ∧
    (1 : Nat) ≤ (LabelWordBucketer.init ["a"]).bucket_strs.length - 1 ∧
    (LabelSentenceBucketer.calc_bucket (LabelSentenceBucketer.init ["a"]) [] none none).1
      ≤ (LabelSentenceBucketer.init ["a"]).bucket_strs.length - 1 := by
  refine ⟨C10_calc_bucket_range.1 "Hello" none, ?_, C10_calc_bucket_range.2.2 ["a"] [] none none⟩
  exact C10_calc_bucket_range.2.1 ["a"] "w" (some "b") 1
    ⟨["a", "other"], [("a", 0), ("b", 1)], 1⟩ (by rfl)

/-! ## C7: falsy and unknown labels -/

/-- C7 counterexample: the claim says the sentence-level categorical label
bucketer raises a configuration error on a missing/falsy label, but
`LabelSentenceBucketer.calc_bucket` is total: with label set ["a", "b"] and a
missing (`None`) label it returns the trailing "other" bucket index 2
(recording `None` in the defaultdict) instead of raising. -/
theorem C7_counterexample :
    (LabelSentenceBucketer.calc_bucket (LabelSentenceBucketer.init ["a", "b"]) [] none none).1
      = 2 ∧
    (LabelSentenceBucketer.calc_bucket (LabelSentenceBucketer.init ["a", "b"]) [] none none).2.entries
      = [(some "a", 0), (some "b", 1), (none, 2)] := by
  constructor <;> rfl

/-- C7 (amended): the word-level label bucketer raises on a missing/falsy
label and maps a non-falsy unknown label to the trailing "other" bucket; the
sentence-level label bucketer never raises — any label outside the label set,
including a missing one, is mapped to the trailing "other" bucket. -/
theorem C7_label_bucketer_spec :
    (∀ ls word lab, (lab = none ∨ lab = some "") →
      LabelWordBucketer.calc_bucket (LabelWordBucketer.init ls) word lab
        = .error "ValueError: When calculating buckets by label, label must be non-zero") ∧
    (∀ ls word s, s ≠ "" → s ∉ ls →
      LabelWordBucketer.calc_bucket (LabelWordBucketer.init ls) word (some s)
        = .ok (ls.length,
            ⟨ls ++ ["other"], labelBucketEntries ls ++ [(s, ls.length)], ls.length⟩)) ∧
    (∀ ls val ref lab, (∀ s, lab = some s → s ∉ ls) →
      (LabelSentenceBucketer.calc_bucket (LabelSentenceBucketer.init ls) val ref lab).1
        = ls.length) := by
  refine ⟨fun ls word lab h => ?_, fun ls word s hne hnotin => ?_, fun ls val ref lab h => ?_⟩
  · unfold LabelWordBucketer.calc_bucket
    rw [if_pos h]
  · have hfalsy : ¬ ((some s : Option String) = none ∨ (some s : Option String) = some "") := by
      simp [hne]
    unfold LabelWordBucketer.calc_bucket
    rw [if_neg hfalsy]
    have hlook : (LabelWordBucketer.init ls).entries.lookup s = none :=
      labelBucketEntries_lookup_none ls s hnotin
    simp only [defaultdictGet, Option.getD_some, hlook]
    rfl
  · unfold LabelSentenceBucketer.calc_bucket
    have hlook : (LabelSentenceBucketer.init ls).entries.lookup lab = none := by
      refine lookup_eq_none_of_forall _ _ (fun q hq => ?_)
      obtain ⟨p, hp, hpq⟩ := List.mem_map.mp hq
      have hmem := (labelBucketEntries_mem ls p hp).1
      intro he
      have hq1 : q.1 = some p.1 := by rw [← hpq]
      rw [hq1] at he
      exact h p.1 he.symm hmem
    simp only [defaultdictGet, hlook]
    rfl

/-- Witness for C7's amended statement at concrete inputs: label set
["a", "b"], word-level falsy label and unknown label "z", sentence-level
missing label. -/
theorem C7_label_bucketer_spec_witness :
    LabelWordBucketer.calc_bucket (LabelWordBucketer.init ["a", "b"]) "w" none
      = .error "ValueError: When calculating buckets by label, label must be non-zero" ∧
    LabelWordBucketer.calc_bucket (LabelWordBucketer.init ["a", "b"]) "w" (some "z")
      = .ok (2, ⟨["a", "b", "other"], labelBucketEntries ["a", "b"] ++ [("z", 2)], 2⟩) ∧
    (LabelSentenceBucketer.calc_bucket (LabelSentenceBucketer.init ["a", "b"]) [] none (some "z")).1
      = 2 := by
  refine ⟨C7_label_bucketer_spec.1 ["a", "b"] "w" none (Or.inl rfl), ?_, ?_⟩
  · exact C7_label_bucketer_spec.2.1 ["a", "b"] "w" "z" (by decide) (by decide)
  · exact C7_label_bucketer_spec.2.2 ["a", "b"] [] none (some "z")
      (by intro s hs; simp at hs; rw [← hs]; decide)

/-! ## C9: bucketer state across operations -/

/-- C9 counterexample: the claim says every operation leaves the bucketer's
state unchanged, but `LabelWordBucketer.calc_bucket` on an unknown label
grows the defaultdict `bucket_map`: over label set ["a"], looking up label
"z" records ("z", 1) in the map. -/
theorem C9_counterexample :
    LabelWordBucketer.calc_bucket (LabelWordBucketer.init ["a"]) "w" (some "z")
      = .ok (1, ⟨["a", "other"], [("a", 0), ("z", 1)], 1⟩) ∧
    (LabelWordBucketer.init ["a"]).entries = [("a", 0)] := by
  constructor <;> rfl

/-- C9 (amended): operations leave the bucket-assignment configuration
unchanged — bucket strings and the defaultdict default are never modified,
and although the label bucketers' maps may record unknown labels, each
recorded entry carries the default value, so the induced label-to-bucket
mapping is unchanged; separately, the engines initialize a missing
`case_insensitive` flag to `False` on first call (and leave a present flag
unchanged). -/
theorem C9_state_spec :
    (∀ b word lab r b2, LabelWordBucketer.calc_bucket b word lab = .ok (r, b2) →
      b2.bucket_strs = b.bucket_strs ∧ b2.dflt = b.dflt ∧
      ∀ k, (b2.entries.lookup k).getD b2.dflt = (b.entries.lookup k).getD b.dflt) ∧
    (∀ b val ref lab,
      ((LabelSentenceBucketer.calc_bucket b val ref lab).2).bucket_strs = b.bucket_strs ∧
      ((LabelSentenceBucketer.calc_bucket b val ref lab).2).dflt = b.dflt ∧
      ∀ k, (((LabelSentenceBucketer.calc_bucket b val ref lab).2).entries.lookup k).getD b.dflt
           = (b.entries.lookup k).getD b.dflt) ∧
    (∀ f, (ensure_case_insensitive f).2 = some ((ensure_case_insensitive f).1) ∧
          (∀ x, f = some x → (ensure_case_insensitive f).2 = f) ∧
          (f = none → (ensure_case_insensitive f).1 = false ∧
            (ensure_case_insensitive f).2 = some false)) := by
  refine ⟨fun b word lab r b2 h => ?_, fun b val ref lab => ?_, fun f => ?_⟩
  · unfold LabelWordBucketer.calc_bucket at h
    split at h
    · exact absurd h (by simp)
    · simp only [Except.ok.injEq, Prod.mk.injEq] at h
      obtain ⟨hr, hb2⟩ := h
      subst hb2
      exact ⟨rfl, rfl, fun k => defaultdictGet_lookupD b.entries b.dflt (lab.getD "") k⟩
  · exact ⟨rfl, rfl, fun k => defaultdictGet_lookupD b.entries b.dflt lab k⟩
  · cases f <;> simp [ensure_case_insensitive]

/-- Witness for C9's amended statement at a concrete input: the word label
bucketer over label set ["a"] looking up unknown label "z" keeps its induced
mapping (label "a" still maps to 0) while the flag initialization maps an
absent flag to a stored `False`. -/
theorem C9_state_spec_witness :
    ((LabelWordBucketer.init ["a"]).entries.lookup "a").getD 1 = 0 ∧
    (((⟨["a", "other"], [("a", 0), ("z", 1)], 1⟩ : LabelWordBucketerS).entries.lookup "a").getD 1
      = ((LabelWordBucketer.init ["a"]).entries.lookup "a").getD 1) ∧
    (ensure_case_insensitive none).2 = some false := by
  have h := C9_state_spec.1 (LabelWordBucketer.init ["a"]) "w" (some "z") 1
    ⟨["a", "other"], [("a", 0), ("z", 1)], 1⟩ (by rfl)
  refine ⟨by rfl, ?_, ((C9_state_spec.2.2 none).2.2 rfl).2⟩
  have := h.2.2 "a"
  simpa using this

/-! ## C6: frequency-source configuration -/

/-- C6 counterexample: the claim says supplying more than one frequency
source fails, but `FreqWordBucketer.__init__` given both a `freq_counts`
dict and a `freq_data` corpus succeeds (the dict takes priority and the
corpus is ignored, per the constructor's own docstring). -/
theorem C6_counterexample :
    isOkE (FreqWordBucketer.init (some [("the", 5)]) none none (some [["a"]]) none false)
      = true := by rfl

/-- C6 (amended): construction fails exactly when no frequency source is
supplied (a source counts as supplied when `freq_counts` is truthy,
`freq_count_file` is given at all, or `freq_corpus_file`/`freq_data` are
truthy); when several are supplied the highest-priority one
(`freq_counts`, then `freq_count_file`, then `freq_corpus_file`, then
`freq_data`) is used and the lower-priority ones are ignored. -/
theorem C6_freq_sources_spec :
    (∀ fc fcf fco fd bc ci,
      isOkE (FreqWordBucketer.init fc fcf fco fd bc ci) = false ↔
        (pyTruthy fc = false ∧ fcf = none ∧ pyTruthy fco = false ∧ pyTruthy fd = false)) ∧
    (∀ fc fcf fco fd bc ci, pyTruthy fc = true →
      FreqWordBucketer.init fc fcf fco fd bc ci
        = FreqWordBucketer.init fc none none none bc ci) ∧
    (∀ fc f fco fd bc ci, pyTruthy fc = false →
      FreqWordBucketer.init fc (some f) fco fd bc ci
        = FreqWordBucketer.init fc (some f) none none bc ci) ∧
    (∀ fc fco fd bc ci, pyTruthy fc = false → pyTruthy fco = true →
      FreqWordBucketer.init fc none fco fd bc ci
        = FreqWordBucketer.init fc none fco none bc ci) := by
  refine ⟨fun fc fcf fco fd bc ci => ?_, fun fc fcf fco fd bc ci h => ?_,
          fun fc f fco fd bc ci h => ?_, fun fc fco fd bc ci h1 h2 => ?_⟩
  · constructor
    · intro h
      by_cases h1 : pyTruthy fc = true
      · simp [FreqWordBucketer.init, h1, isOkE] at h
      · by_cases h2 : fcf = none
        · by_cases h3 : pyTruthy fco = true
          · rw [FreqWordBucketer.init] at h
            simp only [eq_self_iff_true, h2] at h
            simp [Bool.not_eq_true] at h1
            simp [h1, h3, isOkE] at h
          · by_cases h4 : pyTruthy fd = true
            · rw [FreqWordBucketer.init] at h
              simp [Bool.not_eq_true] at h1 h3
              simp [h1, h2, h3, h4, isOkE] at h
            · simp [Bool.not_eq_true] at h1 h3 h4
              exact ⟨h1, h2, h3, h4⟩
        · rw [FreqWordBucketer.init] at h
          simp [Bool.not_eq_true] at h1
          simp [h1, h2, isOkE] at h
    · rintro ⟨h1, h2, h3, h4⟩
      rw [FreqWordBucketer.init]
      simp [h1, h2, h3, h4, isOkE]
  · rw [FreqWordBucketer.init, FreqWordBucketer.init]
    simp [h]
  · rw [FreqWordBucketer.init, FreqWordBucketer.init]
    simp [h]
  · rw [FreqWordBucketer.init, FreqWordBucketer.init]
    simp [h1, h2]

/-- Witness for C6's amended statement at concrete inputs: no source fails;
a truthy `freq_counts` wins over a supplied `freq_data`. -/
theorem C6_freq_sources_spec_witness :
    isOkE (FreqWordBucketer.init none none none none none false) = false ∧
    FreqWordBucketer.init (some [("the", 5)]) none none (some [["a"]]) none false
      = FreqWordBucketer.init (some [("the", 5)]) none none none none false := by
  constructor
  · exact (C6_freq_sources_spec.1 none none none none none false).mpr
      (by refine ⟨rfl, rfl, rfl, rfl⟩)
  · exact C6_freq_sources_spec.2.1 (some [("the", 5)]) none none (some [["a"]]) none false rfl

/-! ## Word-level match statistics engine -/

/-- A constructed word bucketer as the statistics engines see it: bucket
display strings, the bucket assignment, and the effective case flag (the
lazy flag initialization itself is `ensure_case_insensitive`). `calc_bucket`
here is the pure bucket assignment; the label bucketers' raising on falsy
labels is modelled by `LabelWordBucketer.calc_bucket` above, and the engines
below model runs in which no bucketer call raises. -/
structure WordBucketer where
  bucket_strs : List String
  calc_bucket : String → Option String → Nat
  case_insensitive : Bool

/-- `ref_pos[w]` of `_calc_sent_buckets_and_matches`: the positions of the
(case-normalized) reference tokens equal to `w`, in increasing order — the
defaultdict of position lists built by the reference loop. -/
def refPoss (ci : Bool) (ref_sent : List String) (w : String) : List Nat :=
  (List.range ref_sent.length).filter (fun ri => lowerIf ci (ref_sent.getD ri "") == w)

/-- The `ref_buckets` array of `_calc_sent_buckets_and_matches`: each
reference token's bucket, from its normalized text and its label. -/
def refBuckets (B : WordBucketer) (ref_sent : List String)
    (ref_label : Option (List String)) : List Nat :=
  ref_sent.enum.map (fun p =>
    B.calc_bucket (lowerIf B.case_insensitive p.2) (labGet ref_label p.1))

/-- The match recorded for an output token whose normalized text has
remaining reference positions `poss` after `c` same-text output tokens: the
`c`-th position if one remains, else -1 (unmatched). -/
def matchVal (c : Nat) (poss : List Nat) : Int :=
  if c < poss.length then ((poss.getD c 0 : Nat) : Int) else -1

/-- The inner loop of `_calc_sent_buckets_and_matches` over one output
sentence: walks the tokens carrying `out_word_cnts`, emitting for each token
the recorded match (a reference position, or -1 when unmatched) and the
assigned bucket. It mirrors the source exactly, including the `if not
bucket:` test, under which a matched reference bucket equal to 0 is falsy
and the output token's own bucket is recomputed instead. -/
def procOutTokens (B : WordBucketer) (rp : String → List Nat) (refBks : List Nat)
    (outLabel : Option (List String)) :
    Nat → List String → (String → Nat) → List (Int × Nat)
  | _, [], _ => []
  | oi, w :: rest, cnts =>
    let ow := lowerIf B.case_insensitive w
    let lab := labGet outLabel oi
    let poss := rp ow
    if poss.isEmpty then
      (-1, B.calc_bucket ow lab) :: procOutTokens B rp refBks outLabel (oi + 1) rest cnts
    else
      let c := cnts ow
      let cnts2 := Function.update cnts ow (c + 1)
      if c < poss.length then
        let m := poss.getD c 0
        let b := refBks.getD m 0
        let b2 := if b = 0 then B.calc_bucket ow lab else b
        ((m : Int), b2) :: procOutTokens B rp refBks outLabel (oi + 1) rest cnts2
      else
        (-1, B.calc_bucket ow lab) :: procOutTokens B rp refBks outLabel (oi + 1) rest cnts2

/-- `WordBucketer._calc_sent_buckets_and_matches`: returns
(ref_buckets, out_buckets, matches). Each output sentence is processed with
its own fresh `out_word_cnts` (separate consumption state per output). -/
def calc_sent_buckets_and_matches (B : WordBucketer) (ref_sent : List String)
    (ref_label : Option (List String)) (out_sents : List (List String))
    (out_labels : Option (List (List String))) :
    List Nat × List (List Nat) × List (List Int) :=
  let refBks := refBuckets B ref_sent ref_label
  let rows := out_sents.enum.map (fun p =>
    procOutTokens B (refPoss B.case_insensitive ref_sent) refBks
      ((out_labels.getD []).get? p.1) 0 p.2 (fun _ => 0))
  (refBks, rows.map (fun r => r.map Prod.snd), rows.map (fun r => r.map Prod.fst))

/-- numpy-style per-bucket increment `v[b] += 1` (bucket indices are in
range for the concrete bucketers, by C10). -/
def incrAt (v : List Nat) (b : Nat) : List Nat := v.set b (v.getD b 0 + 1)

/-- Pointwise addition of equal-length count vectors. -/
def vecAdd (v w : List Nat) : List Nat := (v.zip w).map (fun p => p.1 + p.2)

/-- The sufficient-statistics accumulation of
`WordBucketer.calc_statistics_and_examples` (its sentence loop): per
sentence, bucket and match, then count reference occurrences per bucket and,
per output, occurrences and matches per bucket, summing across sentences.
Returns (ref_total, out_totals, out_matches). The per-sentence diagnostic
example scores and the example selection are not modelled: no claim
concerns them. -/
def calc_statistics_totals (B : WordBucketer) (ref : List (List String))
    (outs : List (List (List String)))
    (ref_labels : Option (List (List String)))
    (out_labels : Option (List (List (List String)))) :
    List Nat × List (List Nat) × List (List Nat) :=
  let zeros := List.replicate B.bucket_strs.length 0
  ref.enum.foldl (fun acc p =>
    let r := calc_sent_buckets_and_matches B p.2
      ((ref_labels.getD []).get? p.1)
      (outs.map (fun x => x.getD p.1 []))
      (match out_labels with
       | some ls => some (ls.map (fun x => x.getD p.1 []))
       | none => none)
    let my_ref_total := r.1.foldl incrAt zeros
    let rows := r.2.1.zip r.2.2
    let my_totals := rows.map (fun ob => ob.1.foldl incrAt zeros)
    let my_matches := rows.map (fun ob =>
      (ob.1.zip ob.2).foldl (fun v q => if q.2 ≥ 0 then incrAt v q.1 else v) zeros)
    (vecAdd acc.1 my_ref_total,
     (acc.2.1.zip my_totals).map (fun q => vecAdd q.1 q.2),
     (acc.2.2.zip my_matches).map (fun q => vecAdd q.1 q.2)))
    (zeros, outs.map (fun _ => zeros), outs.map (fun _ => zeros))

/-- The `CaseWordBucketer` packaged for the engines (it sets no
`case_insensitive` attribute, so the lazy flag initialization makes the
effective flag `False`). -/
def caseWB : WordBucketer :=
  { bucket_strs := CaseWordBucketer.bucket_strs
    calc_bucket := CaseWordBucketer.calc_bucket
    case_insensitive := false }

/-! ## C1: the word-matching algorithm -/

lemma refPoss_mem (ci : Bool) (ref_sent : List String) (w : String) (p : Nat) :
    p ∈ refPoss ci ref_sent w ↔
      (p < ref_sent.length ∧ lowerIf ci (ref_sent.getD p "") = w) := by
  unfold refPoss
  rw [List.mem_filter, List.mem_range]
  simp [beq_iff_eq]

lemma refPoss_sorted (ci : Bool) (ref_sent : List String) (w : String) :
    (refPoss ci ref_sent w).Sorted (· < ·) :=
  (List.pairwise_lt_range ref_sent.length).filter _

lemma procOutTokens_length (B : WordBucketer) (rp : String → List Nat)
    (refBks : List Nat) (outLabel : Option (List String)) :
    ∀ (toks : List String) (oi : Nat) (cnts : String → Nat),
      (procOutTokens B rp refBks outLabel oi toks cnts).length = toks.length := by
  intro toks
  induction toks with
  | nil => intro oi cnts; rfl
  | cons w rest ih =>
    intro oi cnts
    simp only [procOutTokens]
    by_cases h1 : (rp (lowerIf B.case_insensitive w)).isEmpty
    · simp [h1, ih]
    · by_cases h2 : cnts (lowerIf B.case_insensitive w)
          < (rp (lowerIf B.case_insensitive w)).length
      · simp [h1, h2, ih]
      · simp [h1, h2, ih]

/-- Closed form of the recorded matches: the `k`-th output token with
normalized text `w` is matched to the `c`-th reference position carrying
`w`, where `c` is the entry counter for `w` plus the number of earlier
same-text tokens, and to -1 when no such position remains. -/
lemma procOutTokens_match_eq (B : WordBucketer) (rp : String → List Nat)
    (refBks : List Nat) (outLabel : Option (List String)) :
    ∀ (toks : List String) (oi : Nat) (cnts : String → Nat) (k : Nat),
      k < toks.length →
      ((procOutTokens B rp refBks outLabel oi toks cnts).getD k ((0 : Int), 0)).1 =
        matchVal (cnts (lowerIf B.case_insensitive (toks.getD k "")) +
            (toks.take k).countP (fun t => lowerIf B.case_insensitive t
              == lowerIf B.case_insensitive (toks.getD k "")))
          (rp (lowerIf B.case_insensitive (toks.getD k ""))) := by
  intro toks
  induction toks with
  | nil => intro oi cnts k hk; simp at hk
  | cons w rest ih =>
    intro oi cnts k hk
    cases k with
    | zero =>
      simp only [List.getD_cons_zero, List.take_zero, List.countP_nil, Nat.add_zero]
      simp only [procOutTokens]
      by_cases h1 : (rp (lowerIf B.case_insensitive w)).isEmpty = true
      · rw [if_pos h1]
        have hempty : rp (lowerIf B.case_insensitive w) = [] := List.isEmpty_iff.mp h1
        simp [matchVal, hempty]
      · rw [if_neg h1]
        by_cases h2 : cnts (lowerIf B.case_insensitive w)
            < (rp (lowerIf B.case_insensitive w)).length
        · rw [if_pos h2]
          simp [matchVal, h2]
        · rw [if_neg h2]
          simp [matchVal, h2]
    | succ k =>
      have hk2 : k < rest.length := by simpa using hk
      simp only [procOutTokens, List.getD_cons_succ, List.take_succ_cons, List.countP_cons]
      by_cases h1 : (rp (lowerIf B.case_insensitive w)).isEmpty = true
      · rw [if_pos h1, List.getD_cons_succ, ih (oi + 1) cnts k hk2]
        by_cases heq : (lowerIf B.case_insensitive w
            == lowerIf B.case_insensitive (rest.getD k "")) = true
        · have hempty : rp (lowerIf B.case_insensitive (rest.getD k "")) = [] := by
            rw [← eq_of_beq heq]
            exact List.isEmpty_iff.mp h1
          rw [hempty]
          simp [matchVal]
        · rw [if_neg heq, Nat.add_zero]
      · rw [if_neg h1]
        by_cases h2 : cnts (lowerIf B.case_insensitive w)
            < (rp (lowerIf B.case_insensitive w)).length
        · rw [if_pos h2, List.getD_cons_succ,
            ih (oi + 1) (Function.update cnts (lowerIf B.case_insensitive w)
              (cnts (lowerIf B.case_insensitive w) + 1)) k hk2]
          congr 1
          by_cases heq : (lowerIf B.case_insensitive w
              == lowerIf B.case_insensitive (rest.getD k "")) = true
          · rw [if_pos heq, ← eq_of_beq heq, Function.update_same]
            omega
          · have hne : lowerIf B.case_insensitive (rest.getD k "")
                ≠ lowerIf B.case_insensitive w := by
              intro he
              exact heq (beq_iff_eq.mpr he.symm)
            rw [Function.update_noteq hne, if_neg heq, Nat.add_zero]
        · rw [if_neg h2, List.getD_cons_succ,
            ih (oi + 1) (Function.update cnts (lowerIf B.case_insensitive w)
              (cnts (lowerIf B.case_insensitive w) + 1)) k hk2]
          congr 1
          by_cases heq : (lowerIf B.case_insensitive w
              == lowerIf B.case_insensitive (rest.getD k "")) = true
          · rw [if_pos heq, ← eq_of_beq heq, Function.update_same]
            omega
          · have hne : lowerIf B.case_insensitive (rest.getD k "")
                ≠ lowerIf B.case_insensitive w := by
              intro he
              exact heq (beq_iff_eq.mpr he.symm)
            rw [Function.update_noteq hne, if_neg heq, Nat.add_zero]

lemma getD_eq_get_of_lt {α : Type} (l : List α) (n : Nat) (d : α) (h : n < l.length) :
    l.getD n d = l.get ⟨n, h⟩ := by
  rw [List.getD_eq_get?, List.get?_eq_get h]
  rfl

lemma getD_mem_of_lt {α : Type} (l : List α) (n : Nat) (d : α) (h : n < l.length) :
    l.getD n d ∈ l := by
  rw [getD_eq_get_of_lt l n d h]
  exact List.get_mem l n h

lemma sorted_getD_lt (l : List Nat) (hs : l.Sorted (· < ·)) (i j : Nat)
    (hij : i < j) (hj : j < l.length) : l.getD i 0 < l.getD j 0 := by
  have hi : i < l.length := lt_trans hij hj
  rw [getD_eq_get_of_lt l i 0 hi, getD_eq_get_of_lt l j 0 hj]
  exact List.pairwise_iff_get.mp hs ⟨i, hi⟩ ⟨j, hj⟩ hij

lemma procOutTokens_match_ne_of_lt (B : WordBucketer) (ref_sent : List String)
    (refBks : List Nat) (outLabel : Option (List String)) (toks : List String)
    (k k2 : Nat) (hk : k < toks.length) (hk2 : k2 < toks.length) (hlt : k < k2)
    (hpos : 0 ≤ ((procOutTokens B (refPoss B.case_insensitive ref_sent) refBks outLabel
        0 toks (fun _ => 0)).getD k ((0 : Int), 0)).1)
    (hpos2 : 0 ≤ ((procOutTokens B (refPoss B.case_insensitive ref_sent) refBks outLabel
        0 toks (fun _ => 0)).getD k2 ((0 : Int), 0)).1) :
    ((procOutTokens B (refPoss B.case_insensitive ref_sent) refBks outLabel
        0 toks (fun _ => 0)).getD k ((0 : Int), 0)).1
      ≠ ((procOutTokens B (refPoss B.case_insensitive ref_sent) refBks outLabel
        0 toks (fun _ => 0)).getD k2 ((0 : Int), 0)).1 := by
  intro heqv
  have e1 := procOutTokens_match_eq B (refPoss B.case_insensitive ref_sent) refBks outLabel
    toks 0 (fun _ => 0) k hk
  have e2 := procOutTokens_match_eq B (refPoss B.case_insensitive ref_sent) refBks outLabel
    toks 0 (fun _ => 0) k2 hk2
  simp only [Nat.zero_add] at e1 e2
  rw [e1, e2] at heqv
  rw [e1] at hpos
  rw [e2] at hpos2
  unfold matchVal at heqv hpos hpos2
  by_cases hc1 : (toks.take k).countP (fun t => lowerIf B.case_insensitive t
      == lowerIf B.case_insensitive (toks.getD k ""))
      < (refPoss B.case_insensitive ref_sent
          (lowerIf B.case_insensitive (toks.getD k ""))).length
  swap
  · rw [if_neg hc1] at hpos
    exact absurd hpos (by norm_num)
  by_cases hc2 : (toks.take k2).countP (fun t => lowerIf B.case_insensitive t
      == lowerIf B.case_insensitive (toks.getD k2 ""))
      < (refPoss B.case_insensitive ref_sent
          (lowerIf B.case_insensitive (toks.getD k2 ""))).length
  swap
  · rw [if_neg hc2] at hpos2
    exact absurd hpos2 (by norm_num)
  rw [if_pos hc1, if_pos hc2] at heqv
  have hmeq : (refPoss B.case_insensitive ref_sent
        (lowerIf B.case_insensitive (toks.getD k ""))).getD
        ((toks.take k).countP (fun t => lowerIf B.case_insensitive t
          == lowerIf B.case_insensitive (toks.getD k ""))) 0
      = (refPoss B.case_insensitive ref_sent
        (lowerIf B.case_insensitive (toks.getD k2 ""))).getD
        ((toks.take k2).countP (fun t => lowerIf B.case_insensitive t
          == lowerIf B.case_insensitive (toks.getD k2 ""))) 0 := by
    exact_mod_cast heqv
  -- the matched position lies in both position lists, so the two normalized
  -- texts coincide
  have hmem1 : (refPoss B.case_insensitive ref_sent
        (lowerIf B.case_insensitive (toks.getD k ""))).getD
        ((toks.take k).countP (fun t => lowerIf B.case_insensitive t
          == lowerIf B.case_insensitive (toks.getD k ""))) 0
      ∈ refPoss B.case_insensitive ref_sent
          (lowerIf B.case_insensitive (toks.getD k "")) :=
    getD_mem_of_lt _ _ _ hc1
  have hmem2 : (refPoss B.case_insensitive ref_sent
        (lowerIf B.case_insensitive (toks.getD k2 ""))).getD
        ((toks.take k2).countP (fun t => lowerIf B.case_insensitive t
          == lowerIf B.case_insensitive (toks.getD k2 ""))) 0
      ∈ refPoss B.case_insensitive ref_sent
          (lowerIf B.case_insensitive (toks.getD k2 "")) :=
    getD_mem_of_lt _ _ _ hc2
  have hw1 := ((refPoss_mem B.case_insensitive ref_sent _ _).mp hmem1).2
  have hw2 := ((refPoss_mem B.case_insensitive ref_sent _ _).mp hmem2).2
  rw [hmeq] at hw1
  have hww : lowerIf B.case_insensitive (toks.getD k "")
      = lowerIf B.case_insensitive (toks.getD k2 "") := hw1.symm.trans hw2
  rw [hww] at hmeq hc1
  -- the earlier token contributes to the later token's count, so the
  -- indices into the (strictly sorted) position list differ
  have hcnt1 : (toks.take (k + 1)).countP (fun t => lowerIf B.case_insensitive t
        == lowerIf B.case_insensitive (toks.getD k2 ""))
      = (toks.take k).countP (fun t => lowerIf B.case_insensitive t
        == lowerIf B.case_insensitive (toks.getD k2 "")) + 1 := by
    have hsome : toks[k]? = some (toks.get ⟨k, hk⟩) := by
      rw [← List.get?_eq_getElem?]
      exact List.get?_eq_get hk
    have hgdk : toks.getD k "" = toks.get ⟨k, hk⟩ := getD_eq_get_of_lt toks k "" hk
    rw [List.take_succ, hsome, List.countP_append]
    have hptrue : (lowerIf B.case_insensitive (toks.get ⟨k, hk⟩)
        == lowerIf B.case_insensitive (toks.getD k2 "")) = true := by
      rw [← hgdk, ← hww]
      exact beq_self_eq_true _
    have htl : (some (toks.get ⟨k, hk⟩)).toList = [toks.get ⟨k, hk⟩] := rfl
    rw [htl, List.countP_cons, List.countP_nil, if_pos hptrue]
  have hmono : (toks.take (k + 1)).countP (fun t => lowerIf B.case_insensitive t
        == lowerIf B.case_insensitive (toks.getD k2 ""))
      ≤ (toks.take k2).countP (fun t => lowerIf B.case_insensitive t
        == lowerIf B.case_insensitive (toks.getD k2 "")) := by
    have hpre : (toks.take (k + 1)) <+: (toks.take k2) := by
      have heqt : toks.take (k + 1) = (toks.take k2).take (k + 1) := by
        rw [List.take_take, Nat.min_eq_left hlt]
      rw [heqt]
      exact List.take_prefix _ _
    exact hpre.countP_le _
  have hclt : (toks.take k).countP (fun t => lowerIf B.case_insensitive t
        == lowerIf B.case_insensitive (toks.getD k2 ""))
      < (toks.take k2).countP (fun t => lowerIf B.case_insensitive t
        == lowerIf B.case_insensitive (toks.getD k2 "")) := by
    omega
  -- strict sortedness makes distinct indices give distinct positions
  have hsorted := refPoss_sorted B.case_insensitive ref_sent
    (lowerIf B.case_insensitive (toks.getD k2 ""))
  have hglt := sorted_getD_lt _ hsorted _ _ hclt hc2
  rw [hmeq] at hglt
  exact absurd hglt (lt_irrefl _)

lemma procOutTokens_match_injective (B : WordBucketer) (ref_sent : List String)
    (refBks : List Nat) (outLabel : Option (List String)) (toks : List String)
    (k k2 : Nat) (hk : k < toks.length) (hk2 : k2 < toks.length) (hne : k ≠ k2)
    (hpos : 0 ≤ ((procOutTokens B (refPoss B.case_insensitive ref_sent) refBks outLabel
        0 toks (fun _ => 0)).getD k ((0 : Int), 0)).1) :
    ((procOutTokens B (refPoss B.case_insensitive ref_sent) refBks outLabel
        0 toks (fun _ => 0)).getD k ((0 : Int), 0)).1
      ≠ ((procOutTokens B (refPoss B.case_insensitive ref_sent) refBks outLabel
        0 toks (fun _ => 0)).getD k2 ((0 : Int), 0)).1 := by
  intro heqv
  have hpos2 : 0 ≤ ((procOutTokens B (refPoss B.case_insensitive ref_sent) refBks outLabel
      0 toks (fun _ => 0)).getD k2 ((0 : Int), 0)).1 := heqv ▸ hpos
  rcases Nat.lt_or_ge k k2 with h | h
  · exact procOutTokens_match_ne_of_lt B ref_sent refBks outLabel toks k k2
      hk hk2 h hpos hpos2 heqv
  · have hlt : k2 < k := lt_of_le_of_ne h (Ne.symm hne)
    exact procOutTokens_match_ne_of_lt B ref_sent refBks outLabel toks k2 k
      hk2 hk hlt hpos2 hpos heqv.symm

lemma calc_sent_matches_row (B : WordBucketer) (ref_sent : List String)
    (ref_label : Option (List String)) (out_sents : List (List String))
    (out_labels : Option (List (List String))) (oai : Nat) (h : oai < out_sents.length) :
    (calc_sent_buckets_and_matches B ref_sent ref_label out_sents out_labels).2.2.getD oai []
      = (procOutTokens B (refPoss B.case_insensitive ref_sent)
          (refBuckets B ref_sent ref_label) ((out_labels.getD []).get? oai) 0
          (out_sents.getD oai []) (fun _ => 0)).map Prod.fst := by
  have hget : out_sents.get? oai = some (out_sents.get ⟨oai, h⟩) := List.get?_eq_get h
  have hgd : out_sents.getD oai [] = out_sents.get ⟨oai, h⟩ := by
    rw [List.getD_eq_get?, hget]
    rfl
  simp only [calc_sent_buckets_and_matches]
  rw [List.getD_eq_get?, List.get?_map, List.get?_map, List.get?_enum, hget, hgd]
  rfl

/-- C1: word-level matching is multiplicity-aware with separate consumption
state per output. (i) `refPoss` holds exactly the reference positions whose
case-normalized text is the key, (ii) in strictly increasing order; (iii)
each output row of matches is produced by a fresh token walk over that
output alone (separate consumption state per output); (iv) FIFO closed
form: the k-th output token is matched to the c-th reference position of
its normalized text, where c counts the earlier same-text tokens of the
same output — i.e. the earliest remaining unconsumed position is consumed
— or to -1 when no position remains; (v) a reference occurrence is consumed
at most once per output; (vi) on reference ["a","a","b"] and one output
["a","b","b"], the accumulated totals are matches = 2, ref_total = 3,
out_total = 3. -/
theorem C1_word_matching_spec :
    (∀ ci ref_sent w p, p ∈ refPoss ci ref_sent w ↔
      (p < ref_sent.length ∧ lowerIf ci (ref_sent.getD p "") = w)) ∧
    (∀ ci ref_sent w, (refPoss ci ref_sent w).Sorted (· < ·)) ∧
    (∀ B ref_sent ref_label out_sents out_labels oai, oai < out_sents.length →
      ((calc_sent_buckets_and_matches B ref_sent ref_label out_sents
          out_labels).2.2.getD oai [])
        = (procOutTokens B (refPoss B.case_insensitive ref_sent)
            (refBuckets B ref_sent ref_label) ((out_labels.getD []).get? oai) 0
            (out_sents.getD oai []) (fun _ => 0)).map Prod.fst) ∧
    (∀ B ref_sent refBks outLabel toks k, k < toks.length →
      ((procOutTokens B (refPoss B.case_insensitive ref_sent) refBks outLabel 0 toks
          (fun _ => 0)).getD k ((0 : Int), 0)).1
        = matchVal ((toks.take k).countP (fun t => lowerIf B.case_insensitive t
              == lowerIf B.case_insensitive (toks.getD k "")))
            (refPoss B.case_insensitive ref_sent
              (lowerIf B.case_insensitive (toks.getD k "")))) ∧
    (∀ B ref_sent refBks outLabel toks k k2, k < toks.length → k2 < toks.length →
      k ≠ k2 →
      0 ≤ ((procOutTokens B (refPoss B.case_insensitive ref_sent) refBks outLabel 0 toks
          (fun _ => 0)).getD k ((0 : Int), 0)).1 →
      ((procOutTokens B (refPoss B.case_insensitive ref_sent) refBks outLabel 0 toks
          (fun _ => 0)).getD k ((0 : Int), 0)).1
        ≠ ((procOutTokens B (refPoss B.case_insensitive ref_sent) refBks outLabel 0 toks
          (fun _ => 0)).getD k2 ((0 : Int), 0)).1) ∧
    (((calc_statistics_totals caseWB [["a", "a", "b"]] [[["a", "b", "b"]]]
        none none).2.2.getD 0 []).sum = 2 ∧
      (calc_statistics_totals caseWB [["a", "a", "b"]] [[["a", "b", "b"]]]
        none none).1.sum = 3 ∧
      ((calc_statistics_totals caseWB [["a", "a", "b"]] [[["a", "b", "b"]]]
        none none).2.1.getD 0 []).sum = 3) := by
  refine ⟨refPoss_mem, refPoss_sorted, calc_sent_matches_row, ?_,
    procOutTokens_match_injective, by decide, by decide, by decide⟩
  intro B ref_sent refBks outLabel toks k hk
  have h := procOutTokens_match_eq B (refPoss B.case_insensitive ref_sent) refBks outLabel
    toks 0 (fun _ => 0) k hk
  simpa using h

/-- Witness for C1 at the concrete instance of the claim: on output
["a","b","b"] against reference ["a","a","b"], token 0 is matched to
reference position 0 (the earliest remaining "a"), and tokens 0 and 1
consume distinct reference occurrences. -/
theorem C1_word_matching_spec_witness :
    ((procOutTokens caseWB (refPoss false ["a", "a", "b"])
        (refBuckets caseWB ["a", "a", "b"] none) none 0 ["a", "b", "b"]
        (fun _ => 0)).getD 0 ((0 : Int), 0)).1
      = matchVal (((["a", "b", "b"] : List String).take 0).countP
          (fun t => lowerIf false t == lowerIf false ((["a", "b", "b"] : List String).getD 0 "")))
          (refPoss false ["a", "a", "b"] (lowerIf false ((["a", "b", "b"] : List String).getD 0 ""))) ∧
    ((procOutTokens caseWB (refPoss false ["a", "a", "b"])
        (refBuckets caseWB ["a", "a", "b"] none) none 0 ["a", "b", "b"]
        (fun _ => 0)).getD 0 ((0 : Int), 0)).1
      ≠ ((procOutTokens caseWB (refPoss false ["a", "a", "b"])
        (refBuckets caseWB ["a", "a", "b"] none) none 0 ["a", "b", "b"]
        (fun _ => 0)).getD 1 ((0 : Int), 0)).1 := by
  constructor
  · exact C1_word_matching_spec.2.2.2.1 caseWB ["a", "a", "b"]
      (refBuckets caseWB ["a", "a", "b"] none) none ["a", "b", "b"] 0 (by decide)
  · exact C1_word_matching_spec.2.2.2.2.1 caseWB ["a", "a", "b"]
      (refBuckets caseWB ["a", "a", "b"] none) none ["a", "b", "b"] 0 1
      (by decide) (by decide) (by decide) (by decide)

/-! ## C3: the bucket assigned to a matched output token -/

/-- A label word bucketer over label set ["N", "V"] as the engines see it:
the pure view of `LabelWordBucketer.calc_bucket` for runs (like the one
below) in which every supplied label is non-falsy. -/
def labelWB_NV : WordBucketer :=
  { bucket_strs := ["N", "V", "other"]
    calc_bucket := fun _ lab => ((labelBucketEntries ["N", "V"]).lookup (lab.getD "")).getD 2
    case_insensitive := false }

/-- C3, the code evaluated at the failing input: with the label bucketer
over ["N", "V"], reference ["run"] labelled ["N"] and one output ["run"]
labelled ["V"], the output token is matched to reference position 0
(matches = [[0]]) whose reference bucket is 0 (ref_buckets = [0]), yet the
assigned output bucket is 1 (out_buckets = [[1]]) — the bucket recomputed
from the output token's own label — because `if not bucket:` treats the
matched reference bucket index 0 as falsy. The claim (with the spec) says
the matched reference token's bucket is assigned, including bucket 0. -/
theorem C3_matched_bucket_zero_eval :
    calc_sent_buckets_and_matches labelWB_NV ["run"] (some ["N"]) [["run"]]
      (some [["V"]]) = ([0], [[1]], [[0]]) := by decide

/-! ## SentenceBucketer.create_bucketed_corpus (C5) -/

/-- `SentenceBucketer.create_bucketed_corpus`, parameterized by the
sentence bucketer's pure `calc_bucket` and bucket strings. The per-bucket
entries are initialized BEFORE the `if ref is None: ref = out` default is
applied, with the reference side a list only when the original `ref` is
truthy (`[] if ref else None`), and the loop's `if ref != None` guard
compares the post-default `ref` — which is always a list — so an append to a
`None` reference side raises an AttributeError, modelled as an error.
Label indexing (`ref_labels[i][0]`) is modelled with defaults in place of
Python's IndexError (no claim supplies labels). -/
def create_bucketed_corpus
    (calc_bucket : List String → Option (List String) → Option String → Nat)
    (bucket_strs : List String)
    (out : List (List String)) (ref : Option (List (List String)))
    (ref_labels out_labels : Option (List (List String))) :
    Except String (List (List (List String) × Option (List (List String)))) :=
  let bc0 : List (List (List String) × Option (List (List String))) :=
    bucket_strs.map (fun _ => ([], if pyTruthy ref then some [] else none))
  let ref2 := match ref with | none => out | some r => r
  let ref_labels2 := match ref_labels with | none => out_labels | some r => some r
  (out.zip ref2).enum.foldlM (fun bc p =>
    let out_words := p.2.1
    let ref_words := p.2.2
    let bucket := calc_bucket out_words
      (if ref2.isEmpty then none else some ref_words)
      (match ref_labels2 with
       | some ls => if ls.isEmpty then none else some ((ls.getD p.1 []).getD 0 "")
       | none => none)
    let entry := bc.getD bucket ([], none)
    let bc1 := bc.set bucket (entry.1 ++ [out_words], entry.2)
    let entry1 := bc1.getD bucket ([], none)
    match entry1.2 with
    | some l => .ok (bc1.set bucket (entry1.1, some (l ++ [ref_words])))
    | none => .error "AttributeError: NoneType object has no attribute append")
    bc0

/-- The `LengthSentenceBucketer` with cutoffs [10], as a concrete sentence
bucketing policy: `calc_bucket` places the sentence's token count. -/
def lengthSB10 : List String → Option (List String) → Option String → Nat :=
  fun val _ _ => cutoff_into_bucket [10] ((val.length : Nat) : ℚ)

/-- C5, the code evaluated at the failing input: with the length bucketer
(cutoffs [10], bucket strings ["<10", ">=10"]) and the non-empty output
corpus [["a"]], calling `create_bucketed_corpus` without a reference raises
an AttributeError (appending to the `None` reference side), while the same
call with the reference passed explicitly as the output corpus succeeds and
buckets the pair. The claim (and the spec) say the reference defaults to
the output corpus, so the two calls should agree. -/
theorem C5_no_ref_eval :
    create_bucketed_corpus lengthSB10 ["<10", ">=10"] [["a"]] none none none
      = .error "AttributeError: NoneType object has no attribute append" ∧
    create_bucketed_corpus lengthSB10 ["<10", ">=10"] [["a"]] (some [["a"]]) none none
      = .ok [([["a"]], some [["a"]]), ([], some [])] := by
  constructor <;> rfl

/-! ## Source-bucketed alignment match engine (C4) -/

/-- Python float division, raising ZeroDivisionError on a zero divisor. -/
def pydiv (a b : ℚ) : Except String ℚ :=
  if b = 0 then .error "ZeroDivisionError: float division by zero" else .ok (a / b)

/-- Per-bucket `[matches, ref_total, out_total]` update at bucket `b`
(`matches[bucket][j] += 1` in the source). -/
def bumpTriple (m : List (Nat × Nat × Nat)) (b : Nat)
    (f : Nat × Nat × Nat → Nat × Nat × Nat) : List (Nat × Nat × Nat) :=
  m.set b (f (m.getD b (0, 0, 0)))

/-- The per-sentence reference multiset `ref_cnt` of
`calc_source_bucketed_matches`: a defaultdict(int) over the normalized
reference tokens, modelled as its count function (the dict is local to the
sentence loop). -/
def refCnt (ci : Bool) (ref_sent : List String) : String → Nat :=
  ref_sent.foldl
    (fun f w => Function.update f (lowerIf ci w) (f (lowerIf ci w) + 1))
    (fun _ => 0)

/-- `src_lab[src_index] if src_lab else None`: the label of a source
position, `None` when the sentence's label list is falsy. -/
def srcLabOf (src_lab : Option (List String)) : Nat → Option String := fun si =>
  match src_lab with
  | some l => if l.isEmpty then none else some (l.getD si "")
  | none => none

/-- One output-alignment pair of `calc_source_bucketed_matches`: bucket by
the raw source-side token, count an output occurrence, and count a match
(depleting the reference multiset) when the aligned target token still has
remaining reference multiplicity. -/
def outAlignStep (B : WordBucketer) (src_sent out_sent : List String)
    (labOf : Nat → Option String)
    (st : (String → Nat) × List (Nat × Nat × Nat)) (p : Nat × Nat) :
    (String → Nat) × List (Nat × Nat × Nat) :=
  let src_word := src_sent.getD p.1 ""
  let word := lowerIf B.case_insensitive (out_sent.getD p.2 "")
  let bucket := B.calc_bucket src_word (labOf p.1)
  let st2 :=
    if st.1 word > 0 then
      (Function.update st.1 word (st.1 word - 1),
       bumpTriple st.2 bucket (fun t => (t.1 + 1, t.2.1, t.2.2)))
    else st
  (st2.1, bumpTriple st2.2 bucket (fun t => (t.1, t.2.1, t.2.2 + 1)))

/-- The two alignment loops of `calc_source_bucketed_matches` for one
sentence (out-alignment pairs, then ref-alignment pairs). Alignment indices
out of sentence range would raise IndexError in Python; the claims' valid
aligned inputs keep them in range, modelled with defaults. -/
def procSentAligns (B : WordBucketer) (src_sent ref_sent out_sent : List String)
    (ref_align out_align : List (Nat × Nat)) (src_lab : Option (List String))
    (m0 : List (Nat × Nat × Nat)) : List (Nat × Nat × Nat) :=
  let st := out_align.foldl (outAlignStep B src_sent out_sent (srcLabOf src_lab))
    (refCnt B.case_insensitive ref_sent, m0)
  ref_align.foldl (fun m p =>
    bumpTriple m (B.calc_bucket (src_sent.getD p.1 "") (srcLabOf src_lab p.1))
      (fun t => (t.1, t.2.1 + 1, t.2.2)))
    st.2

/-- The corpus accumulation of `WordBucketer.calc_source_bucketed_matches`:
sentences are aligned by index (`zip_longest` would produce `None` entries
and crash on unequal outer lengths; valid aligned inputs have equal
lengths). -/
def calc_source_bucketed_matches_acc (B : WordBucketer)
    (src ref out : List (List String))
    (ref_aligns out_aligns : List (List (Nat × Nat)))
    (src_labels : Option (List (List String))) : List (Nat × Nat × Nat) :=
  (List.range src.length).foldl (fun m i =>
    procSentAligns B (src.getD i []) (ref.getD i []) (out.getD i [])
      (ref_aligns.getD i []) (out_aligns.getD i [])
      (if pyTruthy src_labels then (src_labels.getD []).get? i else none) m)
    (B.bucket_strs.map (fun _ => (0, 0, 0)))

/-- The yield loop of `calc_source_bucketed_matches`: recall, precision and
F1 per bucket in bucket order, all 0.0 for a zero-match bucket; the
generator is modelled strictly, so a raised ZeroDivisionError at any bucket
aborts the whole result. -/
def sourceBucketedStats :
    List (Nat × Nat × Nat) → Except String (List (Nat × Nat × Nat × ℚ × ℚ × ℚ))
  | [] => .ok []
  | t :: rest => do
    let s ← (if t.1 = 0 then
        pure (t.1, t.2.1, t.2.2, (0 : ℚ), (0 : ℚ), (0 : ℚ))
      else do
        let r ← pydiv (t.1 : ℚ) (t.2.1 : ℚ)
        let p ← pydiv (t.1 : ℚ) (t.2.2 : ℚ)
        let f ← pydiv (2 * p * r) (p + r)
        pure (t.1, t.2.1, t.2.2, r, p, f))
    let others ← sourceBucketedStats rest
    .ok (s :: others)

/-- `WordBucketer.calc_source_bucketed_matches`: accumulate, then yield. -/
def calc_source_bucketed_matches (B : WordBucketer) (src ref out : List (List String))
    (ref_aligns out_aligns : List (List (Nat × Nat)))
    (src_labels : Option (List (List String))) :
    Except String (List (Nat × Nat × Nat × ℚ × ℚ × ℚ)) :=
  sourceBucketedStats
    (calc_source_bucketed_matches_acc B src ref out ref_aligns out_aligns src_labels)

/-- The per-bucket statistic when no division raises: 0.0s for a zero-match
bucket, else recall `m/ref`, precision `m/out`, and their harmonic mean. -/
def statOf (t : Nat × Nat × Nat) : Nat × Nat × Nat × ℚ × ℚ × ℚ :=
  if t.1 = 0 then (t.1, t.2.1, t.2.2, 0, 0, 0)
  else
    let r := (t.1 : ℚ) / (t.2.1 : ℚ)
    let p := (t.1 : ℚ) / (t.2.2 : ℚ)
    (t.1, t.2.1, t.2.2, r, p, 2 * p * r / (p + r))

/-- C4 counterexample: the claim says the computation is total over valid
aligned inputs, but with the case bucketer, source [["x"]], reference
[["w"]], output [["w"]], one output alignment (0,0) and no reference
alignments, bucket 0 accumulates matches 1, ref_total 0, out_total 1, and
the recall division `both_tot / float(ref_tot)` raises ZeroDivisionError. -/
theorem C4_counterexample :
    calc_source_bucketed_matches caseWB [["x"]] [["w"]] [["w"]] [[]] [[(0, 0)]] none
      = .error "ZeroDivisionError: float division by zero" := by rfl

lemma bumpTriple_pres (P : Nat × Nat × Nat → Prop) (m : List (Nat × Nat × Nat))
    (b : Nat) (f : Nat × Nat × Nat → Nat × Nat × Nat)
    (hm : ∀ t ∈ m, P t) (hf : ∀ t, P t → P (f t)) (h0 : P (0, 0, 0)) :
    ∀ t ∈ bumpTriple m b f, P t := by
  intro t ht
  unfold bumpTriple at ht
  rcases List.mem_or_eq_of_mem_set ht with h | h
  · exact hm t h
  · subst h
    refine hf _ ?_
    by_cases hb : b < m.length
    · exact hm _ (getD_mem_of_lt _ _ _ hb)
    · rw [List.getD_eq_default m (0, 0, 0) (le_of_not_lt hb)]
      exact h0

lemma bumpTriple_bumpTriple (m : List (Nat × Nat × Nat)) (b : Nat)
    (f1 f2 : Nat × Nat × Nat → Nat × Nat × Nat) :
    bumpTriple (bumpTriple m b f1) b f2 = bumpTriple m b (fun t => f2 (f1 t)) := by
  by_cases hb : b < m.length
  · unfold bumpTriple
    rw [List.set_set]
    congr 2
    rw [List.getD_eq_get?, List.get?_set_eq_of_lt _ hb]
    rfl
  · have h2 : m.length ≤ b := le_of_not_lt hb
    unfold bumpTriple
    have hA : m.set b (f1 (m.getD b (0, 0, 0))) = m := List.set_eq_of_length_le h2
    rw [hA, List.set_eq_of_length_le h2, List.set_eq_of_length_le h2]

lemma outAlignFold_inv (B : WordBucketer) (src_sent out_sent : List String)
    (labOf : Nat → Option String) :
    ∀ (pairs : List (Nat × Nat)) (st : (String → Nat) × List (Nat × Nat × Nat)),
      (∀ t ∈ st.2, t.1 ≤ t.2.2) →
      ∀ t ∈ (pairs.foldl (outAlignStep B src_sent out_sent labOf) st).2,
        t.1 ≤ t.2.2 := by
  intro pairs
  induction pairs with
  | nil => intro st h; exact h
  | cons p rest ih =>
    intro st h
    rw [List.foldl_cons]
    refine ih _ ?_
    simp only [outAlignStep]
    by_cases hw : st.1 (lowerIf B.case_insensitive (out_sent.getD p.2 "")) > 0
    · rw [if_pos hw]
      rw [bumpTriple_bumpTriple]
      refine bumpTriple_pres _ _ _ _ h (fun t ht => ?_) (by simp)
      simpa using Nat.add_le_add ht (le_refl 1)
    · rw [if_neg hw]
      refine bumpTriple_pres _ _ _ _ h (fun t ht => ?_) (by simp)
      exact le_trans ht (Nat.le_succ _)

lemma refAlignFold_inv (bucketOf : Nat × Nat → Nat) :
    ∀ (pairs : List (Nat × Nat)) (m : List (Nat × Nat × Nat)),
      (∀ t ∈ m, t.1 ≤ t.2.2) →
      ∀ t ∈ pairs.foldl (fun m2 p => bumpTriple m2 (bucketOf p)
          (fun t => (t.1, t.2.1 + 1, t.2.2))) m, t.1 ≤ t.2.2 := by
  intro pairs
  induction pairs with
  | nil => intro m h; exact h
  | cons p rest ih =>
    intro m h
    rw [List.foldl_cons]
    exact ih _ (bumpTriple_pres _ _ _ _ h (fun t ht => ht) (by simp))

lemma procSentAligns_inv (B : WordBucketer) (src_sent ref_sent out_sent : List String)
    (ref_align out_align : List (Nat × Nat)) (src_lab : Option (List String))
    (m0 : List (Nat × Nat × Nat)) (hm : ∀ t ∈ m0, t.1 ≤ t.2.2) :
    ∀ t ∈ procSentAligns B src_sent ref_sent out_sent ref_align out_align src_lab m0,
      t.1 ≤ t.2.2 := by
  unfold procSentAligns
  exact refAlignFold_inv _ ref_align _
    (outAlignFold_inv B src_sent out_sent _ out_align _ hm)

lemma sourceAccFold_inv (B : WordBucketer) (src ref out : List (List String))
    (ra oa : List (List (Nat × Nat))) (sl : Option (List (List String))) :
    ∀ (idxs : List Nat) (m : List (Nat × Nat × Nat)), (∀ t ∈ m, t.1 ≤ t.2.2) →
      ∀ t ∈ idxs.foldl (fun m2 i => procSentAligns B (src.getD i []) (ref.getD i [])
          (out.getD i []) (ra.getD i []) (oa.getD i [])
          (if pyTruthy sl then (sl.getD []).get? i else none) m2) m,
        t.1 ≤ t.2.2 := by
  intro idxs
  induction idxs with
  | nil => intro m h; exact h
  | cons i rest ih =>
    intro m h
    rw [List.foldl_cons]
    exact ih _ (procSentAligns_inv B _ _ _ _ _ _ _ h)

lemma calc_source_acc_out_ge_matches (B : WordBucketer) (src ref out : List (List String))
    (ra oa : List (List (Nat × Nat))) (sl : Option (List (List String))) :
    ∀ t ∈ calc_source_bucketed_matches_acc B src ref out ra oa sl, t.1 ≤ t.2.2 := by
  unfold calc_source_bucketed_matches_acc
  refine sourceAccFold_inv B src ref out ra oa sl _ _ (fun t ht => ?_)
  obtain ⟨s, hs, hts⟩ := List.mem_map.mp ht
  rw [← hts]

lemma sourceBucketedStats_ok (m : List (Nat × Nat × Nat))
    (hrt : ∀ t ∈ m, t.1 ≠ 0 → t.2.1 ≠ 0) (hout : ∀ t ∈ m, t.1 ≤ t.2.2) :
    sourceBucketedStats m = .ok (m.map statOf) := by
  induction m with
  | nil => rfl
  | cons t rest ih =>
    have hr := ih (fun q hq h => hrt q (by simp [hq]) h) (fun q hq => hout q (by simp [hq]))
    by_cases h0 : t.1 = 0
    · simp only [sourceBucketedStats, if_pos h0, hr]
      simp [statOf, h0, Bind.bind, Except.bind, Pure.pure, Except.pure]
    · have hrt0 : ((t.2.1 : ℚ)) ≠ 0 := Nat.cast_ne_zero.mpr (hrt t (by simp) h0)
      have hout0 : ((t.2.2 : ℚ)) ≠ 0 := by
        have h1 := hout t (by simp)
        have h2 : t.2.2 ≠ 0 := by omega
        exact Nat.cast_ne_zero.mpr h2
      have hrpos : (0 : ℚ) < (t.1 : ℚ) / (t.2.1 : ℚ) := by
        apply div_pos
        · exact_mod_cast Nat.pos_of_ne_zero h0
        · exact_mod_cast Nat.pos_of_ne_zero (hrt t (by simp) h0)
      have hppos : (0 : ℚ) ≤ (t.1 : ℚ) / (t.2.2 : ℚ) := by positivity
      have hsum : (t.1 : ℚ) / (t.2.2 : ℚ) + (t.1 : ℚ) / (t.2.1 : ℚ) ≠ 0 :=
        ne_of_gt (add_pos_of_nonneg_of_pos hppos hrpos)
      simp only [sourceBucketedStats, if_neg h0, hr, pydiv, if_neg hrt0, if_neg hout0,
        if_neg hsum]
      simp [statOf, h0, hsum, Bind.bind, Except.bind, Pure.pure, Except.pure]

/-- C4 (amended): in `calc_source_bucketed_matches`, (i) every bucket's
accumulated output count is at least its match count, so the precision
division never divides by zero; (ii) whenever every bucket with a positive
match count also has a positive reference-aligned count, the generator
yields one tuple per bucket with no error, and (iii) a zero-match bucket
yields recall = precision = f1 = 0.0. (The claim's unconditional totality
fails: the recall division `both_tot / float(ref_tot)` raises
ZeroDivisionError when a bucket has matches but no reference-aligned
occurrences — see the counterexample.) -/
theorem C4_source_bucketed_matches_spec :
    (∀ B src ref out ra oa sl,
      ∀ t ∈ calc_source_bucketed_matches_acc B src ref out ra oa sl, t.1 ≤ t.2.2) ∧
    (∀ B src ref out ra oa sl,
      (∀ t ∈ calc_source_bucketed_matches_acc B src ref out ra oa sl,
        t.1 ≠ 0 → t.2.1 ≠ 0) →
      calc_source_bucketed_matches B src ref out ra oa sl
        = .ok ((calc_source_bucketed_matches_acc B src ref out ra oa sl).map statOf)) ∧
    (∀ t, t.1 = 0 → statOf t = (t.1, t.2.1, t.2.2, 0, 0, 0)) := by
  refine ⟨calc_source_acc_out_ge_matches, fun B src ref out ra oa sl h => ?_,
    fun t h0 => by simp [statOf, h0]⟩
  unfold calc_source_bucketed_matches
  exact sourceBucketedStats_ok _ h (calc_source_acc_out_ge_matches B src ref out ra oa sl)

/-- Witness for C4's amended statement at a concrete input: the same
alignment as the counterexample, but with the reference alignment present,
succeeds with bucket 0 scoring perfect recall/precision/F1 and the
zero-match buckets all 0.0. -/
theorem C4_source_bucketed_matches_spec_witness :
    calc_source_bucketed_matches caseWB [["x"]] [["w"]] [["w"]] [[(0, 0)]] [[(0, 0)]] none
      = .ok ((calc_source_bucketed_matches_acc caseWB [["x"]] [["w"]] [["w"]]
          [[(0, 0)]] [[(0, 0)]] none).map statOf) ∧
    calc_source_bucketed_matches_acc caseWB [["x"]] [["w"]] [["w"]]
        [[(0, 0)]] [[(0, 0)]] none = [(1, 1, 1), (0, 0, 0), (0, 0, 0), (0, 0, 0)] := by
  constructor
  · refine C4_source_bucketed_matches_spec.2.1 caseWB [["x"]] [["w"]] [["w"]]
      [[(0, 0)]] [[(0, 0)]] none ?_
    intro t ht h0
    have hacc : calc_source_bucketed_matches_acc caseWB [["x"]] [["w"]] [["w"]]
        [[(0, 0)]] [[(0, 0)]] none = [(1, 1, 1), (0, 0, 0), (0, 0, 0), (0, 0, 0)] := by rfl
    rw [hacc] at ht
    simp only [List.mem_cons, List.not_mem_nil, or_false] at ht
    rcases ht with h | h | h | h <;> subst h <;> simp_all
  · rfl

/-! ## Likelihood bucketing engine (C8) -/

/-- One token's accumulation in `calc_bucketed_likelihoods`:
`bucketed_likelihoods[bucket][0] += ll; bucketed_likelihoods[bucket][1] += 1`. -/
def bumpLL (acc : List (ℚ × Nat)) (b : Nat) (ll : ℚ) : List (ℚ × Nat) :=
  acc.set b ((acc.getD b (0, 0)).1 + ll, (acc.getD b (0, 0)).2 + 1)

/-- The token loop of `calc_bucketed_likelihoods` over one zipped sentence:
the (normalized) word selects the bucket — and is also passed as the label
(`label=word` in the source) — while the likelihood value is accumulated. -/
def llSentFold (B : WordBucketer) (acc : List (ℚ × Nat)) (sent : List String)
    (lls : List ℚ) : List (ℚ × Nat) :=
  (sent.zip lls).foldl (fun acc2 q =>
    bumpLL acc2 (B.calc_bucket (lowerIf B.case_insensitive q.1)
      (some (lowerIf B.case_insensitive q.1))) q.2) acc

/-- `WordBucketer.calc_bucketed_likelihoods`: outer length check, per
sentence an inner length check, accumulation, then per bucket in order the
mean or the "NA" sentinel (here `none`). The generator is modelled
strictly; this is faithful because both checks and the whole accumulation
run before the source's first `yield`, so an error produces no partial
results. -/
def calc_bucketed_likelihoods (B : WordBucketer) (corpus : List (List String))
    (likelihoods : List (List ℚ)) : Except String (List (Option ℚ)) :=
  if corpus.length ≠ likelihoods.length then
    .error "ValueError: Corpus and likelihoods should have the same size."
  else do
    let acc ← (corpus.zip likelihoods).foldlM (fun acc2 p =>
      if p.1.length ≠ p.2.length then
        throw "ValueError: Each sentence of the corpus should have likelihood value for each word"
      else
        pure (llSentFold B acc2 p.1 p.2))
      (B.bucket_strs.map (fun _ => ((0 : ℚ), (0 : Nat))))
    pure (acc.map (fun q => if q.2 ≠ 0 then some (q.1 / (q.2 : ℚ)) else none))

/-- The likelihood values of the tokens that fall into bucket `b` (token
identity used only to select the bucket, value only for averaging). -/
def bucketLikelihoodValues (B : WordBucketer) (corpus : List (List String))
    (likelihoods : List (List ℚ)) (b : Nat) : List ℚ :=
  ((corpus.zip likelihoods).flatMap (fun p => p.1.zip p.2)).filterMap
    (fun q =>
      if B.calc_bucket (lowerIf B.case_insensitive q.1)
          (some (lowerIf B.case_insensitive q.1)) = b then some q.2 else none)

lemma bumpLL_length (acc : List (ℚ × Nat)) (b : Nat) (ll : ℚ) :
    (bumpLL acc b ll).length = acc.length := List.length_set acc b _

lemma bumpLL_getD_same (acc : List (ℚ × Nat)) (b : Nat) (ll : ℚ)
    (hb : b < acc.length) :
    (bumpLL acc b ll).getD b (0, 0)
      = ((acc.getD b (0, 0)).1 + ll, (acc.getD b (0, 0)).2 + 1) := by
  unfold bumpLL
  rw [List.getD_eq_get?, List.get?_set_eq_of_lt _ hb]
  rfl

lemma bumpLL_getD_ne (acc : List (ℚ × Nat)) (b : Nat) (ll : ℚ) (b2 : Nat)
    (hne : b ≠ b2) :
    (bumpLL acc b ll).getD b2 (0, 0) = acc.getD b2 (0, 0) := by
  unfold bumpLL
  rw [List.getD_eq_get?, List.get?_set_ne _ _ hne, ← List.getD_eq_get?]

lemma llPairsFold_length (B : WordBucketer) :
    ∀ (pairs : List (String × ℚ)) (acc : List (ℚ × Nat)),
      (pairs.foldl (fun acc2 q =>
        bumpLL acc2 (B.calc_bucket (lowerIf B.case_insensitive q.1)
          (some (lowerIf B.case_insensitive q.1))) q.2) acc).length = acc.length := by
  intro pairs
  induction pairs with
  | nil => intro acc; rfl
  | cons q rest ih =>
    intro acc
    rw [List.foldl_cons, ih, bumpLL_length]

/-- The accumulator after folding a pair list holds, per bucket, the
initial slot plus the sum and count of the values routed to that bucket. -/
lemma llPairsFold_getD (B : WordBucketer) (n : Nat)
    (hcb : ∀ w lab, B.calc_bucket w lab < n) :
    ∀ (pairs : List (String × ℚ)) (acc : List (ℚ × Nat)), acc.length = n →
      ∀ b, b < n →
      ((pairs.foldl (fun acc2 q =>
          bumpLL acc2 (B.calc_bucket (lowerIf B.case_insensitive q.1)
            (some (lowerIf B.case_insensitive q.1))) q.2) acc).getD b (0, 0))
        = ((acc.getD b (0, 0)).1
            + (pairs.filterMap (fun q =>
                if B.calc_bucket (lowerIf B.case_insensitive q.1)
                    (some (lowerIf B.case_insensitive q.1)) = b
                then some q.2 else none)).sum,
           (acc.getD b (0, 0)).2
            + (pairs.filterMap (fun q =>
                if B.calc_bucket (lowerIf B.case_insensitive q.1)
                    (some (lowerIf B.case_insensitive q.1)) = b
                then some q.2 else none)).length) := by
  intro pairs
  induction pairs with
  | nil =>
    intro acc hlen b hb
    simp
  | cons q rest ih =>
    intro acc hlen b hb
    rw [List.foldl_cons, List.filterMap_cons]
    have hlen2 : (bumpLL acc (B.calc_bucket (lowerIf B.case_insensitive q.1)
        (some (lowerIf B.case_insensitive q.1))) q.2).length = n := by
      rw [bumpLL_length, hlen]
    rw [ih _ hlen2 b hb]
    by_cases hbq : B.calc_bucket (lowerIf B.case_insensitive q.1)
        (some (lowerIf B.case_insensitive q.1)) = b
    · rw [if_pos hbq, hbq, bumpLL_getD_same acc b q.2 (by omega)]
      simp only [List.sum_cons, List.length_cons, Prod.mk.injEq]
      exact ⟨by ring, by omega⟩
    · rw [if_neg hbq, bumpLL_getD_ne acc _ q.2 b hbq]

lemma llFoldM_ok (B : WordBucketer) :
    ∀ (sents : List (List String × List ℚ)) (acc : List (ℚ × Nat)),
      (∀ p ∈ sents, p.1.length = p.2.length) →
      (sents.foldlM (fun acc2 p =>
        if p.1.length ≠ p.2.length then
          throw "ValueError: Each sentence of the corpus should have likelihood value for each word"
        else pure (llSentFold B acc2 p.1 p.2)) acc
        : Except String (List (ℚ × Nat)))
      = .ok ((sents.flatMap (fun p => p.1.zip p.2)).foldl (fun acc2 q =>
          bumpLL acc2 (B.calc_bucket (lowerIf B.case_insensitive q.1)
            (some (lowerIf B.case_insensitive q.1))) q.2) acc) := by
  intro sents
  induction sents with
  | nil => intro acc h; rfl
  | cons p rest ih =>
    intro acc h
    have hp : ¬ (p.1.length ≠ p.2.length) := not_ne_iff.mpr (h p (by simp))
    rw [List.foldlM_cons, if_neg hp, List.flatMap_cons, List.foldl_append]
    have hbind : ∀ (x : List (ℚ × Nat)) (f : List (ℚ × Nat) → Except String (List (ℚ × Nat))),
        (pure x : Except String (List (ℚ × Nat))) >>= f = f x := fun x f => rfl
    rw [hbind]
    exact ih _ (fun q hq => h q (by simp [hq]))

lemma llFoldM_error (B : WordBucketer) :
    ∀ (sents : List (List String × List ℚ)) (acc : List (ℚ × Nat)),
      (∃ p ∈ sents, p.1.length ≠ p.2.length) →
      isOkE (sents.foldlM (fun acc2 p =>
        if p.1.length ≠ p.2.length then
          throw "ValueError: Each sentence of the corpus should have likelihood value for each word"
        else pure (llSentFold B acc2 p.1 p.2)) acc
        : Except String (List (ℚ × Nat))) = false := by
  intro sents
  induction sents with
  | nil =>
    intro acc h
    obtain ⟨p, hp, _⟩ := h
    exact absurd hp (List.not_mem_nil p)
  | cons p rest ih =>
    intro acc h
    rw [List.foldlM_cons]
    by_cases hp : p.1.length ≠ p.2.length
    · rw [if_pos hp]
      rfl
    · rw [if_neg hp]
      have hbind : ∀ (x : List (ℚ × Nat)) (f : List (ℚ × Nat) → Except String (List (ℚ × Nat))),
          (pure x : Except String (List (ℚ × Nat))) >>= f = f x := fun x f => rfl
      rw [hbind]
      refine ih _ ?_
      obtain ⟨q, hq, hqne⟩ := h
      rcases List.mem_cons.mp hq with he | he
      · exact absurd (he ▸ hqne) hp
      · exact ⟨q, he, hqne⟩

lemma getD_map_of_lt {α β : Type} (f : α → β) (l : List α) (b : Nat) (d : α) (d2 : β)
    (h : b < l.length) : (l.map f).getD b d2 = f (l.getD b d) := by
  rw [List.getD_eq_get?, List.get?_map, List.getD_eq_get?, List.get?_eq_get h]
  rfl

lemma map_eq_range_map {α β : Type} (d : α) (f : α → β) :
    ∀ (l : List α) (n : Nat) (g : Nat → β), l.length = n →
      (∀ b, b < n → f (l.getD b d) = g b) →
      l.map f = (List.range n).map g := by
  intro l
  induction l with
  | nil =>
    intro n g hlen hg
    rw [← hlen]
    rfl
  | cons a rest ih =>
    intro n g hlen hg
    cases n with
    | zero => simp at hlen
    | succ m =>
      rw [List.range_succ_eq_map, List.map_cons, List.map_cons, List.map_map]
      congr 1
      · exact hg 0 (Nat.succ_pos m)
      · refine ih m (g ∘ Nat.succ) (by simpa using hlen) (fun b hb => ?_)
        exact hg (b + 1) (by omega)

lemma isOkE_bind_false {ε α β : Type} (x : Except ε α) (f : α → Except ε β)
    (h : isOkE x = false) : isOkE (x >>= f) = false := by
  cases x with
  | error e => rfl
  | ok v => simp [isOkE] at h

/-- A label word bucketer over label set ["a", "b"] as the engines see it —
the claim's "bucketer mapping a to bucket 0 and b to bucket 1". -/
def labelWB_ab : WordBucketer :=
  { bucket_strs := ["a", "b", "other"]
    calc_bucket := fun _ lab => ((labelBucketEntries ["a", "b"]).lookup (lab.getD "")).getD 2
    case_insensitive := false }

lemma labelWB_ab_calc_lt :
    ∀ w lab, labelWB_ab.calc_bucket w lab < labelWB_ab.bucket_strs.length := by
  intro w lab
  show ((labelBucketEntries ["a", "b"]).lookup (lab.getD "")).getD 2 < 3
  cases hl : (labelBucketEntries ["a", "b"]).lookup (lab.getD "") with
  | none => simp
  | some v =>
    obtain ⟨q, hq, hv⟩ := lookup_mem_value _ _ _ hl
    have h2 : q.2 < 2 := by simpa using (labelBucketEntries_mem ["a", "b"] q hq).2
    simp only [Option.getD_some]
    omega

lemma calc_bucketed_likelihoods_ok (B : WordBucketer) (corpus : List (List String))
    (likelihoods : List (List ℚ))
    (hcb : ∀ w lab, B.calc_bucket w lab < B.bucket_strs.length)
    (hlen : corpus.length = likelihoods.length)
    (hsents : ∀ p ∈ corpus.zip likelihoods, p.1.length = p.2.length) :
    calc_bucketed_likelihoods B corpus likelihoods
      = .ok ((List.range B.bucket_strs.length).map (fun b =>
          if (bucketLikelihoodValues B corpus likelihoods b).length ≠ 0 then
            some ((bucketLikelihoodValues B corpus likelihoods b).sum
              / ((bucketLikelihoodValues B corpus likelihoods b).length : ℚ))
          else none)) := by
  unfold calc_bucketed_likelihoods
  rw [if_neg (not_ne_iff.mpr hlen)]
  rw [llFoldM_ok B (corpus.zip likelihoods)
    (B.bucket_strs.map (fun _ => ((0 : ℚ), (0 : Nat)))) hsents]
  have hbind : ∀ (x : List (ℚ × Nat))
      (f2 : List (ℚ × Nat) → Except String (List (Option ℚ))),
      (Except.ok x : Except String (List (ℚ × Nat))) >>= f2 = f2 x := fun _ _ => rfl
  rw [hbind]
  have hpure : ∀ (y : List (Option ℚ)),
      (pure y : Except String (List (Option ℚ))) = Except.ok y := fun _ => rfl
  rw [hpure]
  congr 1
  refine map_eq_range_map ((0 : ℚ), (0 : Nat)) _ _ B.bucket_strs.length _ ?_ ?_
  · rw [llPairsFold_length, List.length_map]
  · intro b hb
    rw [llPairsFold_getD B B.bucket_strs.length hcb _ _
      (by rw [List.length_map]) b hb]
    rw [getD_map_of_lt (fun _ => ((0 : ℚ), (0 : Nat))) B.bucket_strs b "" ((0 : ℚ), (0 : Nat)) hb]
    show (if (0 : Nat) + (bucketLikelihoodValues B corpus likelihoods b).length ≠ 0 then
        some (((0 : ℚ) + (bucketLikelihoodValues B corpus likelihoods b).sum)
          / (((0 : Nat) + (bucketLikelihoodValues B corpus likelihoods b).length : Nat) : ℚ))
      else none) = _
    rw [Nat.zero_add, zero_add]

/-- C8: the likelihood engine yields, per bucket in order, the arithmetic
mean of the log-likelihoods of the tokens routed to that bucket, or the
"NA" sentinel (`none`) for an empty bucket, whenever the corpus and
likelihood structures agree in outer and per-sentence lengths (and bucket
indices stay in range, which C10 gives for the concrete bucketers); it
raises — yielding nothing, hence no partial results — on an outer length
mismatch or on any per-sentence length mismatch; and on corpus [["a","b"]]
with likelihoods [[-1, -3]] under a bucketer mapping "a" to bucket 0 and
"b" to bucket 1 it yields -1 for bucket 0, -3 for bucket 1, and "NA" for
the remaining bucket. -/
theorem C8_bucketed_likelihoods_spec :
    (∀ B corpus likelihoods,
      (∀ w lab, WordBucketer.calc_bucket B w lab < B.bucket_strs.length) →
      corpus.length = likelihoods.length →
      (∀ p ∈ corpus.zip likelihoods, p.1.length = p.2.length) →
      calc_bucketed_likelihoods B corpus likelihoods
        = .ok ((List.range B.bucket_strs.length).map (fun b =>
            if (bucketLikelihoodValues B corpus likelihoods b).length ≠ 0 then
              some ((bucketLikelihoodValues B corpus likelihoods b).sum
                / ((bucketLikelihoodValues B corpus likelihoods b).length : ℚ))
            else none))) ∧
    (∀ B corpus likelihoods, corpus.length ≠ likelihoods.length →
      calc_bucketed_likelihoods B corpus likelihoods
        = .error "ValueError: Corpus and likelihoods should have the same size.") ∧
    (∀ B corpus likelihoods, corpus.length = likelihoods.length →
      (∃ p ∈ corpus.zip likelihoods, p.1.length ≠ p.2.length) →
      isOkE (calc_bucketed_likelihoods B corpus likelihoods) = false) ∧
    (calc_bucketed_likelihoods labelWB_ab [["a", "b"]] [[-1, -3]]
      = .ok [some (-1), some (-3), none]) := by
  refine ⟨calc_bucketed_likelihoods_ok, ?_, ?_, ?_⟩
  · intro B corpus likelihoods h
    unfold calc_bucketed_likelihoods
    rw [if_pos h]
  · intro B corpus likelihoods hlen hex
    unfold calc_bucketed_likelihoods
    rw [if_neg (not_ne_iff.mpr hlen)]
    exact isOkE_bind_false _ _ (llFoldM_error B (corpus.zip likelihoods) _ hex)
  · rw [calc_bucketed_likelihoods_ok labelWB_ab [["a", "b"]] [[-1, -3]]
      labelWB_ab_calc_lt rfl (by decide)]
    congr 1
    have h0 : bucketLikelihoodValues labelWB_ab [["a", "b"]] [[-1, -3]] 0 = [-1] := rfl
    have h1 : bucketLikelihoodValues labelWB_ab [["a", "b"]] [[-1, -3]] 1 = [-3] := rfl
    have h2 : bucketLikelihoodValues labelWB_ab [["a", "b"]] [[-1, -3]] 2 = [] := rfl
    have hr : List.range labelWB_ab.bucket_strs.length = [0, 1, 2] := rfl
    rw [hr]
    simp [h0, h1, h2]

/-- Witness for C8 at the concrete instance of the claim: corpus
[["a","b"]], likelihoods [[-1,-3]], label bucketer over ["a","b"]. -/
theorem C8_bucketed_likelihoods_spec_witness :
    calc_bucketed_likelihoods labelWB_ab [["a", "b"]] [[-1, -3]]
      = .ok ((List.range labelWB_ab.bucket_strs.length).map (fun b =>
          if (bucketLikelihoodValues labelWB_ab [["a", "b"]] [[-1, -3]] b).length ≠ 0 then
            some ((bucketLikelihoodValues labelWB_ab [["a", "b"]] [[-1, -3]] b).sum
              / ((bucketLikelihoodValues labelWB_ab [["a", "b"]] [[-1, -3]] b).length : ℚ))
          else none)) ∧
    isOkE (calc_bucketed_likelihoods labelWB_ab [["a"]] [[-1], [-3]]) = false := by
  constructor
  · exact C8_bucketed_likelihoods_spec.1 labelWB_ab [["a", "b"]] [[-1, -3]]
      labelWB_ab_calc_lt rfl (by decide)
  · rw [C8_bucketed_likelihoods_spec.2.1 labelWB_ab [["a"]] [[-1], [-3]] (by decide)]
    rfl

end CompareMT
